import Mathlib

/-!
Shallow embedding of the real-time trading simulation subsystem
(portfolio ledger, risk evaluator, trading engine, bar aggregator,
moving-average and RSI strategy signal generators) of the `trading`
repository, together with theorems settling the specification claims.

Python floats are modelled by `ℚ`; the claims under verification are about
control flow, comparisons and exact field-by-field arithmetic, not about
binary rounding.  Python dicts (which preserve insertion order) are
modelled by association lists with an order-preserving `setA` update.
-/

namespace Trading

/-! ### Association lists (Python dict embedding) -/

/-- Lookup by key in an association list (Python `dict.get`). -/
def lookupA {β : Type} (k : String) : List (String × β) → Option β
  | [] => none
  | (k', v) :: t => if k = k' then some v else lookupA k t

/-- Set a key's value, keeping insertion order; append when absent
(Python `d[k] = v`). -/
def setA {β : Type} (k : String) (v : β) : List (String × β) → List (String × β)
  | [] => [(k, v)]
  | (k', v') :: t => if k = k' then (k, v) :: t else (k', v') :: setA k v t

/-- Remove a key (Python `del d[k]`). -/
def eraseA {β : Type} (k : String) : List (String × β) → List (String × β)
  | [] => []
  | (k', v') :: t => if k = k' then t else (k', v') :: eraseA k t

theorem lookupA_setA_self {β : Type} (k : String) (v : β) (l : List (String × β)) :
    lookupA k (setA k v l) = some v := by
  induction l with
  | nil => simp [setA, lookupA]
  | cons h t ih =>
    obtain ⟨k', v'⟩ := h
    by_cases hk : k = k' <;> simp [setA, lookupA, hk, ih]

theorem lookupA_setA_ne {β : Type} (k k' : String) (v : β) (l : List (String × β))
    (h : k' ≠ k) : lookupA k' (setA k v l) = lookupA k' l := by
  induction l with
  | nil => simp [setA, lookupA, h]
  | cons hd t ih =>
    obtain ⟨k₀, v₀⟩ := hd
    by_cases hk : k = k₀
    · subst hk; simp [setA, lookupA, h]
    · by_cases hk' : k' = k₀ <;> simp [setA, lookupA, hk, hk', ih]

/-- Python `str.upper()` restricted to ASCII (all strings compared in the
sources are ASCII). -/
def pyUpper (s : String) : String := ⟨s.data.map Char.toUpper⟩

theorem pyUpper_BUY : pyUpper "BUY" = "BUY" := by decide

theorem pyUpper_SELL : pyUpper "SELL" = "SELL" := by decide

theorem pyUpper_HOLD : pyUpper "HOLD" = "HOLD" := by decide

theorem sell_ne_buy : ("SELL" : String) ≠ "BUY" := by decide

/-! ### MockPortfolio (src/core_engine/portfolio.py) -/

/-- One holdings entry: `{'quantity': int, 'average_cost_price': float}`. -/
structure Holding where
  quantity : ℤ
  average_cost_price : ℚ
  deriving Repr, DecidableEq

/-- State of `MockPortfolio`.  The `verbose` flag is part of the state
because in the source the removal of a fully-sold holding happens inside
the verbose logging branch. -/
structure MockPortfolio where
  cash : ℚ
  peak_portfolio_value : ℚ
  holdings : List (String × Holding)
  realized_pnl : ℚ
  verbose : Bool
  deriving Repr, DecidableEq

namespace MockPortfolio

/-- `MockPortfolio.__init__` (requires non-negative initial cash). -/
def init (initial_cash : ℚ) (verbose : Bool) : MockPortfolio :=
  { cash := initial_cash
    peak_portfolio_value := initial_cash
    holdings := []
    realized_pnl := 0
    verbose := verbose }

/-- `MockPortfolio.get_position`. -/
def get_position (p : MockPortfolio) (symbol : String) : Option Holding :=
  lookupA symbol p.holdings

/-- `MockPortfolio.record_transaction`.  Returns the success flag together
with the updated portfolio. -/
def record_transaction (p : MockPortfolio) (symbol : String)
    (transaction_type : String) (quantity : ℤ) (price : ℚ) :
    Bool × MockPortfolio :=
  if quantity ≤ 0 then (false, p)
  else if price ≤ 0 then (false, p)
  else
    let cost_or_proceeds : ℚ := (quantity : ℚ) * price
    let tt := pyUpper transaction_type
    if tt = "BUY" then
      if p.cash < cost_or_proceeds then (false, p)
      else
        let cash' := p.cash - cost_or_proceeds
        match lookupA symbol p.holdings with
        | some pos =>
          let new_total_cost := pos.average_cost_price * (pos.quantity : ℚ) + cost_or_proceeds
          let new_total_quantity := pos.quantity + quantity
          let new_average_cost := new_total_cost / (new_total_quantity : ℚ)
          (true, { p with cash := cash',
                          holdings := setA symbol ⟨new_total_quantity, new_average_cost⟩ p.holdings })
        | none =>
          (true, { p with cash := cash',
                          holdings := setA symbol ⟨quantity, price⟩ p.holdings })
    else if tt = "SELL" then
      match lookupA symbol p.holdings with
      | none => (false, p)
      | some pos =>
        if pos.quantity < quantity then (false, p)
        else
          let transaction_realized_pnl := (price - pos.average_cost_price) * (quantity : ℚ)
          let new_quantity := pos.quantity - quantity
          let p1 : MockPortfolio :=
            { p with realized_pnl := p.realized_pnl + transaction_realized_pnl,
                     cash := p.cash + cost_or_proceeds,
                     holdings := setA symbol ⟨new_quantity, pos.average_cost_price⟩ p.holdings }
          -- in the source, `del self.holdings[symbol]` is inside `if self.verbose:`
          if p.verbose ∧ new_quantity = 0 then
            (true, { p1 with holdings := eraseA symbol p1.holdings })
          else (true, p1)
    else (false, p)

end MockPortfolio

/-- One BUY/SELL request: arguments of a `record_transaction` call. -/
structure Txn where
  symbol : String
  transaction_type : String
  quantity : ℤ
  price : ℚ
  deriving Repr

/-- Apply a sequence of transactions (each via `record_transaction`),
ignoring the success flags. -/
def applyTxns (p : MockPortfolio) : List Txn → MockPortfolio
  | [] => p
  | t :: ts =>
    applyTxns (p.record_transaction t.symbol t.transaction_type t.quantity t.price).2 ts

/-! #### Portfolio lemmas -/

theorem record_transaction_cash_nonneg (p : MockPortfolio) (symbol tt : String)
    (q : ℤ) (price : ℚ) (h : 0 ≤ p.cash) :
    0 ≤ (p.record_transaction symbol tt q price).2.cash := by
  unfold MockPortfolio.record_transaction
  by_cases hq : q ≤ 0
  · simpa [hq]
  · by_cases hp : price ≤ 0
    · simpa [hq, hp]
    · simp only [hq, hp, if_false, if_true]
      by_cases hb : pyUpper tt = "BUY"
      · simp only [hb, if_true]
        by_cases hc : p.cash < (q : ℚ) * price
        · simpa [hc]
        · push_neg at hc
          cases hl : lookupA symbol p.holdings with
          | some pos => simpa [hc.not_lt, hl] using sub_nonneg.mpr hc
          | none => simpa [hc.not_lt, hl] using sub_nonneg.mpr hc
      · by_cases hs : pyUpper tt = "SELL"
        · simp only [hb, hs, if_false, if_true]
          cases hl : lookupA symbol p.holdings with
          | none => simpa [hl]
          | some pos =>
            by_cases hlt : pos.quantity < q
            · simpa [hl, hlt]
            · have hq' : (0 : ℚ) < q := by exact_mod_cast lt_of_not_le hq
              have hpr : (0 : ℚ) < price := lt_of_not_le hp
              have : 0 ≤ p.cash + (q : ℚ) * price :=
                add_nonneg h (le_of_lt (mul_pos hq' hpr))
              by_cases hv : p.verbose = true ∧ pos.quantity - q = 0
              · simpa [hl, hlt, hv]
              · simpa [hl, hlt, hv]
        · simpa [hb, hs]

theorem applyTxns_cash_nonneg (p : MockPortfolio) (ts : List Txn)
    (h : 0 ≤ p.cash) : 0 ≤ (applyTxns p ts).cash := by
  induction ts generalizing p with
  | nil => simpa [applyTxns]
  | cons t ts ih =>
    exact ih _ (record_transaction_cash_nonneg p t.symbol t.transaction_type t.quantity t.price h)

/-- C3: For every BUY whose cost `quantity*price` exceeds the available cash,
`record_transaction` returns `False` and leaves the portfolio unchanged;
consequently, starting from any non-negative initial cash, the cash stays
non-negative after every sequence of BUY/SELL transactions. -/
theorem buy_insufficient_cash_rejected_and_cash_nonneg
    (p : MockPortfolio) (symbol : String) (q : ℤ) (price : ℚ)
    (hover : p.cash < (q : ℚ) * price)
    (p0 : MockPortfolio) (hp0 : 0 ≤ p0.cash) (ts : List Txn) :
    p.record_transaction symbol "BUY" q price = (false, p) ∧
      0 ≤ (applyTxns p0 ts).cash := by
  refine ⟨?_, applyTxns_cash_nonneg p0 ts hp0⟩
  unfold MockPortfolio.record_transaction
  by_cases hq : q ≤ 0
  · simp [hq]
  · by_cases hp : price ≤ 0
    · simp [hq, hp]
    · simp [hq, hp, pyUpper_BUY, hover]

/-- Witness for C3 at a concrete portfolio and transaction sequence. -/
theorem buy_insufficient_cash_rejected_and_cash_nonneg_witness :
    ((MockPortfolio.init 10 false).cash < ((3 : ℤ) : ℚ) * (5 : ℚ)) ∧
      (0 ≤ (MockPortfolio.init 10 false).cash) ∧
      ((MockPortfolio.init 10 false).record_transaction "A" "BUY" 3 5 =
          (false, MockPortfolio.init 10 false) ∧
        0 ≤ (applyTxns (MockPortfolio.init 10 false)
              [⟨"A", "BUY", 2, 5⟩, ⟨"A", "SELL", 2, 1⟩]).cash) := by
  refine ⟨by norm_num [MockPortfolio.init], by norm_num [MockPortfolio.init], ?_⟩
  exact buy_insufficient_cash_rejected_and_cash_nonneg
    (MockPortfolio.init 10 false) "A" 3 5 (by norm_num [MockPortfolio.init])
    (MockPortfolio.init 10 false) (by norm_num [MockPortfolio.init])
    [⟨"A", "BUY", 2, 5⟩, ⟨"A", "SELL", 2, 1⟩]

/-- C2: A successful SELL that brings a holding's quantity to exactly 0 removes
the entry only when `verbose` is on: with `verbose=False` the zero-quantity
entry stays in the holdings map.  Concretely, buying 1 share of "A" at 10
and selling it back at 10 on a non-verbose portfolio leaves
`holdings = [("A", {quantity := 0, average_cost_price := 10})]`. -/
theorem sell_to_zero_retains_entry_when_not_verbose :
    (applyTxns (MockPortfolio.init 100 false)
        [⟨"A", "BUY", 1, 10⟩, ⟨"A", "SELL", 1, 10⟩]).holdings =
      [("A", ⟨0, 10⟩)] ∧
    (applyTxns (MockPortfolio.init 100 true)
        [⟨"A", "BUY", 1, 10⟩, ⟨"A", "SELL", 1, 10⟩]).holdings = [] := by
  constructor <;>
    norm_num [applyTxns, MockPortfolio.init, MockPortfolio.record_transaction,
      pyUpper_BUY, pyUpper_SELL, sell_ne_buy, lookupA, setA, eraseA]

/-! ### Portfolio valuation (src/core_engine/portfolio.py) -/

/-- A price provider callback `func(symbol) -> price or None`. -/
def PriceCb : Type := String → Option ℚ

/-- Market value of a holdings list under a price callback: a holding whose
price is missing or non-positive contributes zero (body of the loop in
`get_holdings_value`). -/
def holdingsValue (cb : PriceCb) : List (String × Holding) → ℚ
  | [] => 0
  | (symbol, details) :: t =>
    (match cb symbol with
     | some current_price =>
       if 0 < current_price then (details.quantity : ℚ) * current_price else 0
     | none => 0) + holdingsValue cb t

namespace MockPortfolio

/-- `MockPortfolio.get_holdings_value` (returns 0 when no callback). -/
def get_holdings_value (p : MockPortfolio) (cb : Option PriceCb) : ℚ :=
  match cb with
  | none => 0
  | some cb => holdingsValue cb p.holdings

/-- `MockPortfolio.get_total_portfolio_value`: returns the total value and
the portfolio with `peak_portfolio_value` bumped (the sole place the peak
advances). -/
def get_total_portfolio_value (p : MockPortfolio) (cb : Option PriceCb) :
    ℚ × MockPortfolio :=
  let total_value := p.cash + p.get_holdings_value cb
  (total_value,
   if p.peak_portfolio_value < total_value
   then { p with peak_portfolio_value := total_value } else p)

end MockPortfolio

/-- One entry of `get_holdings_with_details`. -/
structure HoldingDetail where
  symbol : String
  quantity : ℤ
  average_cost_price : ℚ
  current_price : Option ℚ
  market_value : ℚ
  unrealized_pnl : ℚ
  deriving Repr

/-- Detail rows for a holdings list under a price callback (loop body of
`get_holdings_with_details` in the callback-present case). -/
def holdingsDetails (cb : PriceCb) : List (String × Holding) → List HoldingDetail
  | [] => []
  | (symbol, details) :: t =>
    (match cb symbol with
     | some current_price =>
       if 0 < current_price then
         { symbol := symbol
           quantity := details.quantity
           average_cost_price := details.average_cost_price
           current_price := some current_price
           market_value := (details.quantity : ℚ) * current_price
           unrealized_pnl := (current_price - details.average_cost_price) * (details.quantity : ℚ) }
       else
         { symbol := symbol, quantity := details.quantity
           average_cost_price := details.average_cost_price
           current_price := none, market_value := 0, unrealized_pnl := 0 }
     | none =>
       { symbol := symbol, quantity := details.quantity
         average_cost_price := details.average_cost_price
         current_price := none, market_value := 0, unrealized_pnl := 0 })
      :: holdingsDetails cb t

namespace MockPortfolio

/-- `MockPortfolio.get_holdings_with_details`.  Without a callback the rows
carry no price, zero market value and zero unrealized P&L. -/
def get_holdings_with_details (p : MockPortfolio) (cb : Option PriceCb) :
    List HoldingDetail :=
  match cb with
  | none =>
    p.holdings.map fun (symbol, details) =>
      { symbol := symbol, quantity := details.quantity
        average_cost_price := details.average_cost_price
        current_price := none, market_value := 0, unrealized_pnl := 0 }
  | some cb => holdingsDetails cb p.holdings

end MockPortfolio

/-! ### Risk manager (src/core_engine/risk_manager.py) -/

/-- `RiskAlert` namedtuple.  Alert messages in the source interpolate
numeric values into f-strings; the embedding keeps the fixed leading text
(no claim inspects messages). -/
structure RiskAlert where
  alert_type : String
  symbol : Option String
  message : String
  timestamp : ℚ
  deriving Repr

/-- `check_stop_loss_per_position`. -/
def check_stop_loss_per_position (portfolio_holdings_with_details : List HoldingDetail)
    (risk_max_unrealized_loss_percentage : ℚ) (now : ℚ) : List RiskAlert :=
  portfolio_holdings_with_details.flatMap fun holding =>
    if holding.quantity = 0 ∨ holding.average_cost_price = 0 then []
    else
      match holding.current_price with
      | some current_price =>
        if 0 < current_price then
          let unrealized_pnl_per_share := current_price - holding.average_cost_price
          if unrealized_pnl_per_share < 0 then
            if risk_max_unrealized_loss_percentage ≤
                |unrealized_pnl_per_share| / holding.average_cost_price then
              [{ alert_type := "STOP_LOSS_PER_POSITION", symbol := some holding.symbol
                 message := "Stop-Loss triggered for " ++ holding.symbol, timestamp := now }]
            else []
          else []
        else []
      | none => []

/-- `check_max_position_size` (both the post-trade loop and the optional
pre-trade check, including the duplicate-suppression test). -/
def check_max_position_size (portfolio_holdings_with_details : List HoldingDetail)
    (total_portfolio_value risk_max_position_size_percentage : ℚ)
    (symbol_being_traded : Option String) (potential_new_market_value : Option ℚ)
    (now : ℚ) : List RiskAlert :=
  if total_portfolio_value = 0 then []
  else
    let alerts := portfolio_holdings_with_details.flatMap fun holding =>
      if 0 < holding.market_value ∧
          risk_max_position_size_percentage <
            holding.market_value / total_portfolio_value then
        [{ alert_type := "MAX_POSITION_SIZE", symbol := some holding.symbol
           message := "Max Position Size triggered for " ++ holding.symbol, timestamp := now }]
      else []
    match symbol_being_traded, potential_new_market_value with
    | some s, some v =>
      if s ≠ "" then  -- Python truthiness of the symbol string
        if 0 < v then
          if risk_max_position_size_percentage < v / total_portfolio_value then
            if alerts.any fun a =>
                a.symbol = some s ∧ a.alert_type = "MAX_POSITION_SIZE" then alerts
            else
              alerts ++
                [{ alert_type := "MAX_POSITION_SIZE_PRE_TRADE", symbol := some s
                   message := "PRE-TRADE Max Position Size triggered for " ++ s
                   timestamp := now }]
          else alerts
        else alerts
      else alerts
    | _, _ => alerts

/-- `check_max_account_drawdown`. -/
def check_max_account_drawdown (current_total_portfolio_value peak_portfolio_value
    risk_max_account_drawdown_percentage : ℚ) (now : ℚ) : List RiskAlert :=
  if peak_portfolio_value ≤ 0 then []
  else
    let drawdown :=
      (peak_portfolio_value - current_total_portfolio_value) / peak_portfolio_value
    if risk_max_account_drawdown_percentage < drawdown then
      [{ alert_type := "MAX_ACCOUNT_DRAWDOWN", symbol := none
         message := "Max Account Drawdown triggered.", timestamp := now }]
    else []

/-- The `portfolio_state` dict passed to `evaluate_all_risks`. -/
structure PortfolioStateSnap where
  holdings_details : List HoldingDetail
  total_value : ℚ
  peak_value : ℚ

/-- The `trade_context` dict for pre-trade checks. -/
structure TradeContext where
  symbol : Option String
  potential_market_value_after_trade : Option ℚ

/-- The `risk_parameters` dict. -/
structure RiskParams where
  stop_loss_pct : ℚ
  max_pos_pct : ℚ
  max_dd_pct : ℚ
  deriving Repr

/-- `evaluate_all_risks`. -/
def evaluate_all_risks (portfolio_state : PortfolioStateSnap) (risk_params : RiskParams)
    (trade_context : Option TradeContext) (now : ℚ) : List RiskAlert :=
  check_stop_loss_per_position portfolio_state.holdings_details
      risk_params.stop_loss_pct now ++
    check_max_position_size portfolio_state.holdings_details
      portfolio_state.total_value risk_params.max_pos_pct
      (trade_context.bind (·.symbol))
      (trade_context.bind (·.potential_market_value_after_trade)) now ++
    check_max_account_drawdown portfolio_state.total_value
      portfolio_state.peak_value risk_params.max_dd_pct now

/-! ### MockTradingEngine (src/core_engine/trading_engine.py) -/

/-- A `TradeRecord` dict. -/
structure TradeRecord where
  trade_id : String
  symbol : String
  timestamp : ℚ
  type : String
  quantity : ℤ
  price : ℚ
  total_value : ℚ
  deriving Repr

/-- `f"TRADE_{n:05d}"`. -/
def formatTradeId (n : ℕ) : String :=
  let s := toString n
  "TRADE_" ++ String.mk (List.replicate (5 - s.length) '0') ++ s

/-- A signal event dict as read by `handle_signal_event` (`event.get`
returning `None` for an absent key is `none`). -/
structure SignalEvent where
  signal : Option String
  symbol : Option String
  price : Option ℚ
  timestamp : Option ℚ

/-- State of `MockTradingEngine`. -/
structure MockTradingEngine where
  portfolio : MockPortfolio
  fixed_trade_quantity : ℤ
  trade_log : List TradeRecord
  trade_id_counter : ℕ
  active_risk_alerts : List RiskAlert
  risk_parameters : RiskParams
  current_price_provider_callback : Option PriceCb
  verbose : Bool

namespace MockTradingEngine

/-- `MockTradingEngine._perform_risk_evaluation`: without a price callback
it returns immediately (alerts untouched); otherwise it computes the
portfolio snapshot (updating the peak), clears the alert list and replaces
it with the fresh evaluation. -/
def _perform_risk_evaluation (e : MockTradingEngine)
    (trade_context : Option TradeContext) (now : ℚ) : MockTradingEngine :=
  match e.current_price_provider_callback with
  | none => e
  | some cb =>
    let holdings_details := e.portfolio.get_holdings_with_details (some cb)
    let totalAndPort := e.portfolio.get_total_portfolio_value (some cb)
    let portfolio_state : PortfolioStateSnap :=
      { holdings_details := holdings_details
        total_value := totalAndPort.1
        peak_value := totalAndPort.2.peak_portfolio_value }
    let new_alerts :=
      evaluate_all_risks portfolio_state e.risk_parameters trade_context now
    { e with portfolio := totalAndPort.2, active_risk_alerts := new_alerts }

/-- `MockTradingEngine.handle_signal_event`; `now` stands for `time.time()`,
the default used when the event carries no timestamp. -/
def handle_signal_event (e : MockTradingEngine) (event : SignalEvent) (now : ℚ) :
    MockTradingEngine :=
  let signal_type := pyUpper (event.signal.getD "")
  let timestamp := event.timestamp.getD now
  -- `if not all([signal_type, symbol, price is not None]): return`
  if signal_type = "" ∨ event.symbol = none ∨ event.symbol = some "" ∨
      event.price = none then e
  else
    match event.symbol, event.price with
    | some symbol, some price =>
      -- general risk check before processing the new signal (the helper
      -- itself returns unchanged when there is no callback)
      let e1 := e._perform_risk_evaluation none now
      if signal_type = "HOLD" then e1
      else if ¬(signal_type = "BUY" ∨ signal_type = "SELL") then e1
      else
        let quantity_to_trade := e1.fixed_trade_quantity
        let preTrade : MockTradingEngine × Bool :=
          if signal_type = "BUY" ∧ e1.current_price_provider_callback.isSome then
            let current_quantity :=
              match e1.portfolio.get_position symbol with
              | some pos => pos.quantity
              | none => 0
            let potential_market_value_of_position :=
              ((current_quantity + quantity_to_trade : ℤ) : ℚ) * price
            let e2 := e1._perform_risk_evaluation
              (some ⟨some symbol, some potential_market_value_of_position⟩) now
            (e2, e2.active_risk_alerts.any fun a =>
              a.alert_type = "MAX_POSITION_SIZE_PRE_TRADE" ∧ a.symbol = some symbol)
          else (e1, false)
        if preTrade.2 then preTrade.1
        else
          let e3 := { preTrade.1 with trade_id_counter := preTrade.1.trade_id_counter + 1 }
          let trade_id := formatTradeId e3.trade_id_counter
          let txn := e3.portfolio.record_transaction symbol signal_type
            quantity_to_trade price
          let e4 := { e3 with portfolio := txn.2 }
          if txn.1 then
            let trade_record : TradeRecord :=
              { trade_id := trade_id, symbol := symbol, timestamp := timestamp
                type := signal_type, quantity := quantity_to_trade, price := price
                total_value := (quantity_to_trade : ℚ) * price }
            let e5 := { e4 with trade_log := e4.trade_log ++ [trade_record] }
            e5._perform_risk_evaluation none now
          else e4
    | _, _ => e

end MockTradingEngine

/-! #### Engine theorems -/

/-- C10: A signal event whose signal kind is missing or empty, whose symbol
is missing, or whose price is `None` makes `handle_signal_event` return at
the validity guard: the whole engine state — portfolio (cash, holdings,
realized P&L), trade log, trade-id counter and active alerts — is returned
unchanged, and in particular no risk evaluation has touched it. -/
theorem invalid_signal_event_leaves_engine_unchanged
    (e : MockTradingEngine) (event : SignalEvent) (now : ℚ)
    (h : event.signal = none ∨ event.signal = some "" ∨
      event.symbol = none ∨ event.price = none) :
    e.handle_signal_event event now = e := by
  unfold MockTradingEngine.handle_signal_event
  rcases h with h | h | h | h
  · simp [h, pyUpper]
  · simp [h, pyUpper]
  · simp [h]
  · simp [h]

/-- Witness for C10 at a concrete engine and an event with no price. -/
theorem invalid_signal_event_leaves_engine_unchanged_witness :
    (⟨some "BUY", some "A", none, none⟩ : SignalEvent).price = none ∧
      MockTradingEngine.handle_signal_event
          ⟨MockPortfolio.init 1000 false, 100, [], 0, [],
            ⟨1/10, 1/4, 3/20⟩, none, false⟩
          ⟨some "BUY", some "A", none, none⟩ 0 =
        ⟨MockPortfolio.init 1000 false, 100, [], 0, [],
          ⟨1/10, 1/4, 3/20⟩, none, false⟩ :=
  ⟨rfl, invalid_signal_event_leaves_engine_unchanged _ _ 0 (Or.inr (Or.inr (Or.inr rfl)))⟩

/-! Alert-type classification lemmas for the three risk checks. -/

theorem stop_loss_alert_types (d : List HoldingDetail) (l now : ℚ) (a : RiskAlert)
    (ha : a ∈ check_stop_loss_per_position d l now) :
    a.alert_type = "STOP_LOSS_PER_POSITION" := by
  unfold check_stop_loss_per_position at ha
  simp only [List.mem_flatMap] at ha
  obtain ⟨h, -, hm⟩ := ha
  split at hm
  · simp at hm
  · split at hm
    · split at hm
      · split at hm
        · split at hm
          · simp at hm; subst hm; rfl
          · simp at hm
        · simp at hm
      · simp at hm
    · simp at hm

theorem max_position_alert_types (d : List HoldingDetail) (tv l : ℚ)
    (sbt : Option String) (pmv : Option ℚ) (now : ℚ) (a : RiskAlert)
    (ha : a ∈ check_max_position_size d tv l sbt pmv now) :
    a.alert_type = "MAX_POSITION_SIZE" ∨ a.alert_type = "MAX_POSITION_SIZE_PRE_TRADE" := by
  unfold check_max_position_size at ha
  have base : ∀ b ∈ (d.flatMap fun holding =>
      if 0 < holding.market_value ∧ l < holding.market_value / tv then
        [{ alert_type := "MAX_POSITION_SIZE", symbol := some holding.symbol
           message := "Max Position Size triggered for " ++ holding.symbol,
           timestamp := now : RiskAlert }]
      else []), b.alert_type = "MAX_POSITION_SIZE" := by
    intro b hb
    simp only [List.mem_flatMap] at hb
    obtain ⟨h, -, hm⟩ := hb
    split at hm
    · simp at hm; subst hm; rfl
    · simp at hm
  split at ha
  · simp at ha
  · split at ha
    · dsimp only at ha
      split at ha
      · split at ha
        · split at ha
          · split at ha
            · exact Or.inl (base a ha)
            · rcases List.mem_append.mp ha with h | h
              · exact Or.inl (base a h)
              · simp at h; subst h; exact Or.inr rfl
          · exact Or.inl (base a ha)
        · exact Or.inl (base a ha)
      · exact Or.inl (base a ha)
    · dsimp only at ha
      exact Or.inl (base a ha)

theorem drawdown_alert_mem_iff (tv pv l now : ℚ) :
    (∃ a ∈ check_max_account_drawdown tv pv l now,
        a.alert_type = "MAX_ACCOUNT_DRAWDOWN") ↔
      0 < pv ∧ l < (pv - tv) / pv := by
  unfold check_max_account_drawdown
  by_cases hp : pv ≤ 0
  · simp [hp, not_lt.mpr hp]
  · push_neg at hp
    by_cases hd : l < (pv - tv) / pv
    · simp [not_le.mpr hp, hd, hp]
    · simp [not_le.mpr hp, hd, hp]

/-- C6: After every risk evaluation the engine performs (i.e. whenever a
price callback is present), the active-alerts list equals exactly the
result of that latest `evaluate_all_risks` call on the freshly computed
portfolio snapshot — previous alerts are discarded, never accumulated —
and a `MAX_ACCOUNT_DRAWDOWN` alert is present if and only if, with the
just-updated peak `P > 0` and total value `T`, `(P − T)/P` strictly
exceeds `maxDrawdownPct`. -/
theorem risk_evaluation_replaces_alerts_and_drawdown_iff
    (e : MockTradingEngine) (cb : PriceCb) (tc : Option TradeContext) (now : ℚ)
    (hcb : e.current_price_provider_callback = some cb) :
    (e._perform_risk_evaluation tc now).active_risk_alerts =
        evaluate_all_risks
          { holdings_details := e.portfolio.get_holdings_with_details (some cb)
            total_value := (e.portfolio.get_total_portfolio_value (some cb)).1
            peak_value :=
              (e.portfolio.get_total_portfolio_value (some cb)).2.peak_portfolio_value }
          e.risk_parameters tc now ∧
      ((∃ a ∈ (e._perform_risk_evaluation tc now).active_risk_alerts,
          a.alert_type = "MAX_ACCOUNT_DRAWDOWN") ↔
        (0 < (e.portfolio.get_total_portfolio_value (some cb)).2.peak_portfolio_value ∧
          e.risk_parameters.max_dd_pct <
            ((e.portfolio.get_total_portfolio_value (some cb)).2.peak_portfolio_value -
                (e.portfolio.get_total_portfolio_value (some cb)).1) /
              (e.portfolio.get_total_portfolio_value (some cb)).2.peak_portfolio_value)) := by
  constructor
  · unfold MockTradingEngine._perform_risk_evaluation
    rw [hcb]
  · unfold MockTradingEngine._perform_risk_evaluation
    rw [hcb]
    simp only [evaluate_all_risks]
    constructor
    · rintro ⟨a, ha, hty⟩
      rcases List.mem_append.mp ha with h | h
      · rcases List.mem_append.mp h with h | h
        · rw [stop_loss_alert_types _ _ _ a h] at hty
          exact absurd hty (by decide)
        · rcases max_position_alert_types _ _ _ _ _ _ a h with h' | h' <;>
            rw [h'] at hty <;> exact absurd hty (by decide)
      · exact (drawdown_alert_mem_iff _ _ _ now).mp ⟨a, h, hty⟩
    · intro h
      obtain ⟨a, ha, hty⟩ := (drawdown_alert_mem_iff _ _ _ now).mpr h
      exact ⟨a, List.mem_append.mpr (Or.inr ha), hty⟩

/-! Preservation lemmas: a risk evaluation never touches cash, holdings,
realized P&L, the trade log, the trade-id counter or the configuration. -/

theorem get_total_snd_fields (p : MockPortfolio) (cb : Option PriceCb) :
    (p.get_total_portfolio_value cb).2.cash = p.cash ∧
      (p.get_total_portfolio_value cb).2.holdings = p.holdings ∧
      (p.get_total_portfolio_value cb).2.realized_pnl = p.realized_pnl ∧
      (p.get_total_portfolio_value cb).2.verbose = p.verbose := by
  unfold MockPortfolio.get_total_portfolio_value
  dsimp only
  split <;> exact ⟨rfl, rfl, rfl, rfl⟩

theorem perform_eval_preserves (e : MockTradingEngine) (tc : Option TradeContext)
    (now : ℚ) :
    (e._perform_risk_evaluation tc now).portfolio.cash = e.portfolio.cash ∧
      (e._perform_risk_evaluation tc now).portfolio.holdings = e.portfolio.holdings ∧
      (e._perform_risk_evaluation tc now).portfolio.realized_pnl = e.portfolio.realized_pnl ∧
      (e._perform_risk_evaluation tc now).trade_log = e.trade_log ∧
      (e._perform_risk_evaluation tc now).trade_id_counter = e.trade_id_counter ∧
      (e._perform_risk_evaluation tc now).fixed_trade_quantity = e.fixed_trade_quantity ∧
      (e._perform_risk_evaluation tc now).risk_parameters = e.risk_parameters ∧
      (e._perform_risk_evaluation tc now).current_price_provider_callback =
        e.current_price_provider_callback := by
  cases hcb : e.current_price_provider_callback with
  | none => simp [MockTradingEngine._perform_risk_evaluation, hcb]
  | some cb =>
    obtain ⟨h1, h2, h3, -⟩ := get_total_snd_fields e.portfolio (some cb)
    simp [MockTradingEngine._perform_risk_evaluation, hcb, h1, h2, h3]

/-- With a callback present, the alerts after a risk evaluation are exactly
the fresh `evaluate_all_risks` result on the recomputed snapshot. -/
theorem perform_eval_alerts (e : MockTradingEngine) (cb : PriceCb)
    (tc : Option TradeContext) (now : ℚ)
    (hcb : e.current_price_provider_callback = some cb) :
    (e._perform_risk_evaluation tc now).active_risk_alerts =
      evaluate_all_risks
        { holdings_details := e.portfolio.get_holdings_with_details (some cb)
          total_value := (e.portfolio.get_total_portfolio_value (some cb)).1
          peak_value :=
            (e.portfolio.get_total_portfolio_value (some cb)).2.peak_portfolio_value }
        e.risk_parameters tc now := by
  unfold MockTradingEngine._perform_risk_evaluation
  rw [hcb]

/-- Membership in the post-trade position-size loop: every alert it emits
is a `MAX_POSITION_SIZE` alert for a holding whose share exceeds the limit. -/
theorem mem_position_loop_alerts {d : List HoldingDetail} {tv l now : ℚ} {a : RiskAlert}
    (ha : a ∈ d.flatMap fun holding =>
      if 0 < holding.market_value ∧ l < holding.market_value / tv then
        [{ alert_type := "MAX_POSITION_SIZE", symbol := some holding.symbol
           message := "Max Position Size triggered for " ++ holding.symbol,
           timestamp := now : RiskAlert }]
      else []) :
    ∃ h ∈ d, (0 < h.market_value ∧ l < h.market_value / tv) ∧
      a.symbol = some h.symbol ∧ a.alert_type = "MAX_POSITION_SIZE" := by
  simp only [List.mem_flatMap] at ha
  obtain ⟨h, hd, hm⟩ := ha
  refine ⟨h, hd, ?_⟩
  split at hm
  · simp at hm; subst hm; exact ⟨by assumption, rfl, rfl⟩
  · simp at hm

/-- When the pre-trade share test fires and no `MAX_POSITION_SIZE` alert
for the candidate symbol was produced by the post-trade loop, the
pre-trade alert is appended to the result of `check_max_position_size`. -/
theorem pre_trade_alert_mem (d : List HoldingDetail) (tv l : ℚ) (s : String)
    (v now : ℚ) (htv : 0 < tv) (hs : s ≠ "") (hv : 0 < v) (hlt : l < v / tv)
    (hnodup : ∀ h ∈ d, h.symbol = s →
      ¬(0 < h.market_value ∧ l < h.market_value / tv)) :
    ({ alert_type := "MAX_POSITION_SIZE_PRE_TRADE", symbol := some s
       message := "PRE-TRADE Max Position Size triggered for " ++ s
       timestamp := now } : RiskAlert) ∈
      check_max_position_size d tv l (some s) (some v) now := by
  unfold check_max_position_size
  rw [if_neg (ne_of_gt htv)]
  dsimp only
  rw [if_pos hs, if_pos hv, if_pos hlt]
  have hany : (List.any (d.flatMap fun holding =>
      if 0 < holding.market_value ∧ l < holding.market_value / tv then
        [{ alert_type := "MAX_POSITION_SIZE", symbol := some holding.symbol
           message := "Max Position Size triggered for " ++ holding.symbol,
           timestamp := now : RiskAlert }]
      else [])
      fun a => decide (a.symbol = some s ∧ a.alert_type = "MAX_POSITION_SIZE")) = false := by
    rw [Bool.eq_false_iff]
    intro hany
    obtain ⟨a, ha, hp⟩ := List.any_eq_true.mp hany
    rw [decide_eq_true_eq] at hp
    obtain ⟨h, hd, hcond, hsym, -⟩ := mem_position_loop_alerts ha
    rw [hp.1] at hsym
    exact hnodup h hd (Option.some.inj hsym).symm hcond
  rw [hany]
  simp

theorem buy_ne_hold : ("BUY" : String) ≠ "HOLD" := by decide

theorem buy_ne_empty : ("BUY" : String) ≠ "" := by decide

theorem symA_ne_empty : ("A" : String) ≠ "" := by decide

theorem get_holdings_with_details_congr (p q : MockPortfolio) (cb : Option PriceCb)
    (h : p.holdings = q.holdings) :
    p.get_holdings_with_details cb = q.get_holdings_with_details cb := by
  unfold MockPortfolio.get_holdings_with_details
  cases cb <;> rw [h]

theorem get_total_fst (p : MockPortfolio) (cb : PriceCb) :
    (p.get_total_portfolio_value (some cb)).1 =
      p.cash + holdingsValue cb p.holdings := rfl

/-- C1 (amended): A BUY signal whose hypothetical post-trade position value
`(existing quantity + fixed trade quantity) * signal price` exceeds
`maxPositionPct` of the current (positive) total portfolio value is aborted
— cash, holdings and realized P&L unchanged, no TradeRecord appended, and
a `MAX_POSITION_SIZE_PRE_TRADE` alert for the symbol left in the active
alerts — PROVIDED the same evaluation's post-trade position check raised
no `MAX_POSITION_SIZE` alert for that symbol (the source suppresses the
pre-trade alert as a duplicate in that case, and the engine then lets the
BUY proceed). -/
theorem pre_trade_veto_blocks_buy_unless_duplicate
    (e : MockTradingEngine) (cb : PriceCb) (s : String) (pr ts now : ℚ)
    (hcb : e.current_price_provider_callback = some cb)
    (hs : s ≠ "")
    (htot : 0 < e.portfolio.cash + holdingsValue cb e.portfolio.holdings)
    (hmaxnn : 0 ≤ e.risk_parameters.max_pos_pct)
    (hexceed : e.risk_parameters.max_pos_pct *
        (e.portfolio.cash + holdingsValue cb e.portfolio.holdings) <
      ((((e.portfolio.get_position s).elim 0 Holding.quantity +
          e.fixed_trade_quantity : ℤ)) : ℚ) * pr)
    (hnodup : ∀ h ∈ e.portfolio.get_holdings_with_details (some cb), h.symbol = s →
      ¬(0 < h.market_value ∧ e.risk_parameters.max_pos_pct <
          h.market_value / (e.portfolio.cash + holdingsValue cb e.portfolio.holdings))) :
    (e.handle_signal_event ⟨some "BUY", some s, some pr, some ts⟩ now).portfolio.cash =
        e.portfolio.cash ∧
      (e.handle_signal_event ⟨some "BUY", some s, some pr, some ts⟩ now).portfolio.holdings =
        e.portfolio.holdings ∧
      (e.handle_signal_event ⟨some "BUY", some s, some pr, some ts⟩ now).portfolio.realized_pnl =
        e.portfolio.realized_pnl ∧
      (e.handle_signal_event ⟨some "BUY", some s, some pr, some ts⟩ now).trade_log =
        e.trade_log ∧
      ∃ a ∈ (e.handle_signal_event
          ⟨some "BUY", some s, some pr, some ts⟩ now).active_risk_alerts,
        a.alert_type = "MAX_POSITION_SIZE_PRE_TRADE" ∧ a.symbol = some s := by
  obtain ⟨c1, h1, r1, t1, i1, f1, p1, cb1⟩ := perform_eval_preserves e none now
  have hcb1 : (e._perform_risk_evaluation none now).current_price_provider_callback =
      some cb := cb1.trans hcb
  -- the pre-trade evaluation and its alert list
  have hpos1 : (e._perform_risk_evaluation none now).portfolio.get_position s =
      e.portfolio.get_position s := by
    unfold MockPortfolio.get_position; rw [h1]
  set q : ℤ := (e.portfolio.get_position s).elim 0 Holding.quantity with hq
  set pot : ℚ := ((q + e.fixed_trade_quantity : ℤ) : ℚ) * pr with hpot
  set e2 : MockTradingEngine := (e._perform_risk_evaluation none now)._perform_risk_evaluation
    (some ⟨some s, some pot⟩) now with he2
  have htot1 : ((e._perform_risk_evaluation none now).portfolio.get_total_portfolio_value
      (some cb)).1 = e.portfolio.cash + holdingsValue cb e.portfolio.holdings := by
    rw [get_total_fst, c1, h1]
  have hdet1 : (e._perform_risk_evaluation none now).portfolio.get_holdings_with_details
      (some cb) = e.portfolio.get_holdings_with_details (some cb) :=
    get_holdings_with_details_congr _ _ _ h1
  have hmem : ({ alert_type := "MAX_POSITION_SIZE_PRE_TRADE"
                 symbol := some s
                 message := "PRE-TRADE Max Position Size triggered for " ++ s
                 timestamp := now } : RiskAlert) ∈ e2.active_risk_alerts := by
    rw [he2, perform_eval_alerts _ cb _ now hcb1]
    unfold evaluate_all_risks
    refine List.mem_append.mpr (Or.inl (List.mem_append.mpr (Or.inr ?_)))
    dsimp only [Option.bind]
    rw [htot1, hdet1, p1]
    have hvpos : 0 < pot :=
      lt_of_le_of_lt (mul_nonneg hmaxnn (le_of_lt htot)) hexceed
    exact pre_trade_alert_mem _ _ _ s pot now htot hs hvpos
      ((lt_div_iff₀ htot).mpr hexceed) hnodup
  have hany : (e2.active_risk_alerts.any fun a =>
      a.alert_type = "MAX_POSITION_SIZE_PRE_TRADE" ∧ a.symbol = some s) = true :=
    List.any_eq_true.mpr ⟨_, hmem, by simp⟩
  have hrun : e.handle_signal_event ⟨some "BUY", some s, some pr, some ts⟩ now = e2 := by
    unfold MockTradingEngine.handle_signal_event
    rw [if_neg (by simp [pyUpper_BUY, hs])]
    simp only [Option.getD_some, pyUpper_BUY]
    rw [if_neg buy_ne_hold]
    rw [if_neg (by simp)]
    simp only [hcb1, Option.isSome_some, true_and]
    have hqmatch : (match (e._perform_risk_evaluation none now).portfolio.get_position s with
        | some pos => pos.quantity
        | none => 0) = q := by
      rw [hpos1, hq]; cases e.portfolio.get_position s <;> rfl
    rw [hqmatch, f1, ← he2]
    simp only [hany, if_true]
  obtain ⟨c2, h2, r2, t2, -⟩ := perform_eval_preserves
    (e._perform_risk_evaluation none now) (some ⟨some s, some pot⟩) now
  rw [hrun]
  exact ⟨(c2.trans c1 : _), (h2.trans h1 : _), (r2.trans r1 : _), (t2.trans t1 : _),
    _, hmem, rfl, rfl⟩

/-- A concrete price callback used by engine witnesses. -/
def constPriceCb : PriceCb := fun _ => some 10

theorem mps_ne_pre_trade :
    ("MAX_POSITION_SIZE" : String) ≠ "MAX_POSITION_SIZE_PRE_TRADE" := by decide

theorem sl_ne_pre_trade :
    ("STOP_LOSS_PER_POSITION" : String) ≠ "MAX_POSITION_SIZE_PRE_TRADE" := by decide

/-- Portfolio of the C1 counterexample: cash 10000 and 100 shares of "A"
at average cost 50. -/
def vetoCEPortfolio : MockPortfolio := ⟨10000, 15000, [("A", ⟨100, 50⟩)], 0, false⟩

/-- Price callback of the C1 counterexample: "A" trades at 50. -/
def vetoCECb : PriceCb := fun sym => if sym = "A" then some 50 else none

/-- Engine of the C1 counterexample: fixed trade quantity 100,
`maxPositionPct = 25%`. -/
def vetoCEEngine : MockTradingEngine :=
  ⟨vetoCEPortfolio, 100, [], 0, [], ⟨1/10, 1/4, 3/20⟩, some vetoCECb, false⟩

/-- C1 counterexample: on `vetoCEEngine`, the existing "A" position is
already worth a third of the 15000 portfolio, so the same evaluation's
post-trade check raises `MAX_POSITION_SIZE` for "A" and the pre-trade
alert is suppressed as a duplicate.  The hypothetical post-trade value
`(100+100)*50 = 10000` exceeds `25%` of the total (3750) — the claim's
veto condition — yet the BUY is executed: a TradeRecord is appended, cash
drops to 5000, and no `MAX_POSITION_SIZE_PRE_TRADE` alert for "A" is
active afterwards. -/
theorem pre_trade_veto_claim_counterexample :
    (1/4 : ℚ) * (vetoCEPortfolio.cash + holdingsValue vetoCECb vetoCEPortfolio.holdings) <
        ((((vetoCEPortfolio.get_position "A").elim 0 Holding.quantity +
            vetoCEEngine.fixed_trade_quantity : ℤ)) : ℚ) * 50 ∧
      (vetoCEEngine.handle_signal_event
          ⟨some "BUY", some "A", some 50, some 0⟩ 0).trade_log.length = 1 ∧
      (vetoCEEngine.handle_signal_event
          ⟨some "BUY", some "A", some 50, some 0⟩ 0).portfolio.cash = 5000 ∧
      ∀ a ∈ (vetoCEEngine.handle_signal_event
          ⟨some "BUY", some "A", some 50, some 0⟩ 0).active_risk_alerts,
        ¬(a.alert_type = "MAX_POSITION_SIZE_PRE_TRADE" ∧ a.symbol = some "A") := by
  refine ⟨?_, ?_⟩
  · norm_num [vetoCEPortfolio, vetoCEEngine, vetoCECb, holdingsValue,
      MockPortfolio.get_position, lookupA]
  · norm_num [vetoCEEngine, vetoCEPortfolio, vetoCECb,
      MockTradingEngine.handle_signal_event,
      MockTradingEngine._perform_risk_evaluation,
      MockPortfolio.get_holdings_with_details, holdingsDetails,
      MockPortfolio.get_total_portfolio_value, MockPortfolio.get_holdings_value,
      holdingsValue, evaluate_all_risks, check_stop_loss_per_position,
      check_max_position_size, check_max_account_drawdown,
      MockPortfolio.get_position, MockPortfolio.record_transaction,
      lookupA, setA, pyUpper_BUY, buy_ne_hold, mps_ne_pre_trade,
      buy_ne_empty, symA_ne_empty, Option.some_ne_none]

/-- Witness engine for the amended C1: no holdings, cash 10000, fixed
trade quantity 100, `maxPositionPct = 25%`. -/
def vetoWEngine : MockTradingEngine :=
  ⟨⟨10000, 10000, [], 0, false⟩, 100, [], 0, [], ⟨1/10, 1/4, 3/20⟩,
    some constPriceCb, false⟩

/-- Witness for the amended C1: buying 100 shares at 50 into an empty
10000-cash portfolio would create a 5000 position, over the 2500 limit,
and no duplicate `MAX_POSITION_SIZE` alert exists, so the BUY is blocked. -/
theorem pre_trade_veto_blocks_buy_unless_duplicate_witness :
    (vetoWEngine.current_price_provider_callback = some constPriceCb ∧
      ("A" : String) ≠ "" ∧
      0 < vetoWEngine.portfolio.cash +
        holdingsValue constPriceCb vetoWEngine.portfolio.holdings ∧
      0 ≤ vetoWEngine.risk_parameters.max_pos_pct ∧
      vetoWEngine.risk_parameters.max_pos_pct *
          (vetoWEngine.portfolio.cash +
            holdingsValue constPriceCb vetoWEngine.portfolio.holdings) <
        ((((vetoWEngine.portfolio.get_position "A").elim 0 Holding.quantity +
            vetoWEngine.fixed_trade_quantity : ℤ)) : ℚ) * 50) ∧
      ((vetoWEngine.handle_signal_event
            ⟨some "BUY", some "A", some 50, some 7⟩ 7).portfolio.cash =
          vetoWEngine.portfolio.cash ∧
        (vetoWEngine.handle_signal_event
            ⟨some "BUY", some "A", some 50, some 7⟩ 7).portfolio.holdings =
          vetoWEngine.portfolio.holdings ∧
        (vetoWEngine.handle_signal_event
            ⟨some "BUY", some "A", some 50, some 7⟩ 7).portfolio.realized_pnl =
          vetoWEngine.portfolio.realized_pnl ∧
        (vetoWEngine.handle_signal_event
            ⟨some "BUY", some "A", some 50, some 7⟩ 7).trade_log =
          vetoWEngine.trade_log ∧
        ∃ a ∈ (vetoWEngine.handle_signal_event
            ⟨some "BUY", some "A", some 50, some 7⟩ 7).active_risk_alerts,
          a.alert_type = "MAX_POSITION_SIZE_PRE_TRADE" ∧ a.symbol = some "A") :=
  ⟨⟨rfl, by decide,
    by norm_num [vetoWEngine, holdingsValue],
    by norm_num [vetoWEngine],
    by norm_num [vetoWEngine, holdingsValue, MockPortfolio.get_position, lookupA]⟩,
   pre_trade_veto_blocks_buy_unless_duplicate vetoWEngine constPriceCb "A" 50 7 7
     rfl (by decide)
     (by norm_num [vetoWEngine, holdingsValue])
     (by norm_num [vetoWEngine])
     (by norm_num [vetoWEngine, holdingsValue, MockPortfolio.get_position, lookupA])
     (by simp [vetoWEngine, MockPortfolio.get_holdings_with_details, holdingsDetails])⟩

/-- Witness for C6 at a concrete engine in drawdown (peak 2000, total 1000,
limit 15%). -/
theorem risk_evaluation_replaces_alerts_and_drawdown_iff_witness :
    (⟨⟨1000, 2000, [], 0, false⟩, 100, [], 0, [], ⟨1/10, 1/4, 3/20⟩,
        some constPriceCb, false⟩ :
        MockTradingEngine).current_price_provider_callback = some constPriceCb ∧
      ((⟨⟨1000, 2000, [], 0, false⟩, 100, [], 0, [], ⟨1/10, 1/4, 3/20⟩,
          some constPriceCb, false⟩ :
          MockTradingEngine)._perform_risk_evaluation none 0).active_risk_alerts =
        evaluate_all_risks
          { holdings_details :=
              (⟨1000, 2000, [], 0, false⟩ :
                MockPortfolio).get_holdings_with_details (some constPriceCb)
            total_value :=
              ((⟨1000, 2000, [], 0, false⟩ :
                MockPortfolio).get_total_portfolio_value (some constPriceCb)).1
            peak_value :=
              ((⟨1000, 2000, [], 0, false⟩ :
                  MockPortfolio).get_total_portfolio_value
                (some constPriceCb)).2.peak_portfolio_value }
          ⟨1/10, 1/4, 3/20⟩ none 0 ∧
      ((∃ a ∈ ((⟨⟨1000, 2000, [], 0, false⟩, 100, [], 0, [], ⟨1/10, 1/4, 3/20⟩,
            some constPriceCb, false⟩ :
            MockTradingEngine)._perform_risk_evaluation none 0).active_risk_alerts,
          a.alert_type = "MAX_ACCOUNT_DRAWDOWN") ↔
        (0 < ((⟨1000, 2000, [], 0, false⟩ :
              MockPortfolio).get_total_portfolio_value
            (some constPriceCb)).2.peak_portfolio_value ∧
          (3/20 : ℚ) <
            (((⟨1000, 2000, [], 0, false⟩ :
                  MockPortfolio).get_total_portfolio_value
                (some constPriceCb)).2.peak_portfolio_value -
              ((⟨1000, 2000, [], 0, false⟩ :
                MockPortfolio).get_total_portfolio_value (some constPriceCb)).1) /
              ((⟨1000, 2000, [], 0, false⟩ :
                  MockPortfolio).get_total_portfolio_value
                (some constPriceCb)).2.peak_portfolio_value)) :=
  ⟨rfl, risk_evaluation_replaces_alerts_and_drawdown_iff _ constPriceCb none 0 rfl⟩

/-! ### RealtimeKlinesAggregator (src/core_engine/realtime_klines_aggregator.py) -/

/-- Digit-string to number (core of Python `int()` on the strings the
aggregator can meet). -/
def digitsToNat : List Char → Option ℕ
  | [] => none
  | cs =>
    if cs.all (·.isDigit) then
      some (cs.foldl (fun n c => 10 * n + (c.toNat - ('0').toNat)) 0)
    else none

/-- Python `int(str)`: optional sign followed by digits; anything else
raises `ValueError`, i.e. `none`. -/
def pyInt : List Char → Option ℤ
  | '-' :: rest => (digitsToNat rest).map fun n => -(n : ℤ)
  | '+' :: rest => (digitsToNat rest).map fun n => (n : ℤ)
  | cs => (digitsToNat cs).map fun n => (n : ℤ)

/-- `KLineData` (pydantic model); `volume` is `Optional[float]`. -/
structure KLineData where
  time : ℤ
  «open» : ℚ
  high : ℚ
  low : ℚ
  close : ℚ
  volume : Option ℚ
  deriving Repr, DecidableEq

/-- State of `RealtimeKlinesAggregator`: the currently forming bar per
`(symbol, interval_str)` key. -/
structure RealtimeKlinesAggregator where
  _current_klines : List ((String × String) × KLineData)
  deriving Repr, DecidableEq

/-- Lookup in the `(symbol, interval)`-keyed bar map. -/
def lookupK (k : String × String) :
    List ((String × String) × KLineData) → Option KLineData
  | [] => none
  | (k', v) :: t => if k = k' then some v else lookupK k t

/-- Keyed update of the bar map, keeping insertion order. -/
def setK (k : String × String) (v : KLineData) :
    List ((String × String) × KLineData) → List ((String × String) × KLineData)
  | [] => [(k, v)]
  | (k', v') :: t => if k = k' then (k, v) :: t else (k', v') :: setK k v t

namespace RealtimeKlinesAggregator

/-- `RealtimeKlinesAggregator._get_interval_seconds`: unit from the last
character (lower-cased), value from `int()` of the prefix; unknown formats
raise `ValueError`, embedded as `none`. -/
def _get_interval_seconds (interval_str : String) : Option ℤ :=
  match interval_str.data.getLast? with
  | none => none
  | some c =>
    let unit := c.toLower
    match pyInt interval_str.data.dropLast with
    | none => none
    | some value =>
      if unit = 's' then some (value * 1)
      else if unit = 'm' then some (value * 60)
      else if unit = 'h' then some (value * 3600)
      else if unit = 'd' then some (value * 86400)
      else none

/-- `RealtimeKlinesAggregator._align_timestamp_to_interval`:
`int(math.floor(timestamp / interval_seconds) * interval_seconds)`. -/
def _align_timestamp_to_interval (timestamp : ℚ) (interval_seconds : ℤ) : ℤ :=
  ⌊timestamp / (interval_seconds : ℚ)⌋ * interval_seconds

/-- `RealtimeKlinesAggregator.update_with_tick`.  An invalid interval
string only logs a warning and ignores the tick. -/
def update_with_tick (st : RealtimeKlinesAggregator) (symbol : String)
    (price timestamp : ℚ) (volume : Option ℚ) (interval_str : String) :
    RealtimeKlinesAggregator :=
  match _get_interval_seconds interval_str with
  | none => st
  | some interval_seconds =>
    let kline_start_time := _align_timestamp_to_interval timestamp interval_seconds
    let key := (symbol, interval_str)
    let current_bar := lookupK key st._current_klines
    let tick_volume := volume.getD 0
    match current_bar with
    | none =>
      ⟨setK key ⟨kline_start_time, price, price, price, price, some tick_volume⟩
        st._current_klines⟩
    | some current_bar =>
      if current_bar.time ≠ kline_start_time then
        ⟨setK key ⟨kline_start_time, price, price, price, price, some tick_volume⟩
          st._current_klines⟩
      else
        ⟨setK key
          { current_bar with
              high := max current_bar.high price
              low := min current_bar.low price
              close := price
              volume := some (current_bar.volume.getD 0 + tick_volume) }
          st._current_klines⟩

/-- `RealtimeKlinesAggregator.get_current_kline` (returns a copy). -/
def get_current_kline (st : RealtimeKlinesAggregator)
    (symbol interval_str : String) : Option KLineData :=
  lookupK (symbol, interval_str) st._current_klines

end RealtimeKlinesAggregator

/-- Feed a list of `(price, timestamp, volume)` ticks for one
`(symbol, interval)` to the aggregator, in order. -/
def runTicks (st : RealtimeKlinesAggregator) (symbol interval_str : String) :
    List (ℚ × ℚ × ℚ) → RealtimeKlinesAggregator
  | [] => st
  | (price, ts, vol) :: rest =>
    runTicks (st.update_with_tick symbol price ts (some vol) interval_str)
      symbol interval_str rest

/-- No currently-forming bar for `key` carries bucket start `t`. -/
def noCurrentBarAt (st : RealtimeKlinesAggregator) (key : String × String)
    (t : ℤ) : Prop :=
  ∀ bar, lookupK key st._current_klines = some bar → bar.time ≠ t

/-- Every tick of the list falls in the bucket starting at `B` (for a
duration of `D` seconds). -/
def allTicksInBucket (D : ℤ) (B : ℤ) (ticks : List (ℚ × ℚ × ℚ)) : Prop :=
  ∀ t ∈ ticks, RealtimeKlinesAggregator._align_timestamp_to_interval t.2.1 D = B

theorem lookupK_setK_self (k : String × String) (v : KLineData)
    (l : List ((String × String) × KLineData)) : lookupK k (setK k v l) = some v := by
  induction l with
  | nil => simp [setK, lookupK]
  | cons h t ih =>
    obtain ⟨k', v'⟩ := h
    by_cases hk : k = k' <;> simp [setK, lookupK, hk, ih]

/-- Folding a bucket's remaining ticks into an existing bar for the same
bucket accumulates max/min/last/sum without changing time or open. -/
theorem runTicks_in_bucket (symbol interval_str : String) (D B : ℤ)
    (hI : RealtimeKlinesAggregator._get_interval_seconds interval_str = some D)
    (ticks : List (ℚ × ℚ × ℚ)) :
    ∀ (st : RealtimeKlinesAggregator) (bar : KLineData) (w : ℚ),
      lookupK (symbol, interval_str) st._current_klines = some bar →
      bar.time = B → bar.volume = some w →
      allTicksInBucket D B ticks →
      lookupK (symbol, interval_str)
          (runTicks st symbol interval_str ticks)._current_klines =
        some ⟨bar.time, bar.«open»,
          ticks.foldl (fun h t => max h t.1) bar.high,
          ticks.foldl (fun l t => min l t.1) bar.low,
          ticks.foldl (fun _ t => t.1) bar.close,
          some (ticks.foldl (fun v t => v + t.2.2) w)⟩ := by
  induction ticks with
  | nil =>
    intro st bar w hl ht hw _
    simpa [runTicks, ← hw] using hl
  | cons t rest ih =>
    obtain ⟨p, ts, v⟩ := t
    intro st bar w hl ht hw hall
    have hbkt : RealtimeKlinesAggregator._align_timestamp_to_interval ts D = B :=
      hall (p, ts, v) (List.mem_cons_self _ _)
    have hrest : allTicksInBucket D B rest := fun t htm => hall t (List.mem_cons_of_mem _ htm)
    simp only [runTicks]
    have hstep : (st.update_with_tick symbol p ts (some v) interval_str)._current_klines =
        setK (symbol, interval_str)
          { bar with high := max bar.high p, low := min bar.low p, close := p,
                     volume := some (bar.volume.getD 0 + v) }
          st._current_klines := by
      unfold RealtimeKlinesAggregator.update_with_tick
      rw [hI]
      simp only [hl, hbkt, ht, ne_eq, not_true_eq_false, if_false, Option.getD_some]
    have hbar' := lookupK_setK_self (symbol, interval_str)
      ({ bar with high := max bar.high p, low := min bar.low p, close := p,
                  volume := some (bar.volume.getD 0 + v) }) st._current_klines
    rw [← hstep] at hbar'
    have := ih (st.update_with_tick symbol p ts (some v) interval_str)
      { bar with high := max bar.high p, low := min bar.low p, close := p,
                 volume := some (bar.volume.getD 0 + v) }
      (bar.volume.getD 0 + v) hbar' ht rfl hrest
    rw [this, hw]
    simp [List.foldl_cons, hw]

/-- C4: For a fixed `(symbol, valid interval)` with duration `D`:
(1) a tick for which no current bar exists or whose bucket start
`⌊timestamp/D⌋*D` differs from the current bar's start creates a fresh bar
with open = high = low = close = the tick's price and volume = the tick's
volume; (2) any other tick updates the bar in place with
`high = max high price`, `low = min low price`, `close = price`,
`volume += tickVolume`; (3) hence over one bucket, open is the first
tick's price, close the last tick's price, high/low the running max/min,
and volume the sum of the tick volumes. -/
theorem bar_aggregator_rollover_and_bucket_aggregation
    (symbol interval_str : String) (D : ℤ)
    (hI : RealtimeKlinesAggregator._get_interval_seconds interval_str = some D)
    (st1 : RealtimeKlinesAggregator) (price1 ts1 : ℚ) (vol1 : Option ℚ)
    (h1 : noCurrentBarAt st1 (symbol, interval_str)
      (RealtimeKlinesAggregator._align_timestamp_to_interval ts1 D))
    (st2 : RealtimeKlinesAggregator) (bar2 : KLineData) (price2 ts2 : ℚ)
    (vol2 : Option ℚ)
    (h2 : lookupK (symbol, interval_str) st2._current_klines = some bar2)
    (h2t : bar2.time = RealtimeKlinesAggregator._align_timestamp_to_interval ts2 D)
    (st3 : RealtimeKlinesAggregator) (p0 t0 v0 : ℚ) (rest : List (ℚ × ℚ × ℚ))
    (h3 : noCurrentBarAt st3 (symbol, interval_str)
      (RealtimeKlinesAggregator._align_timestamp_to_interval t0 D))
    (h3b : allTicksInBucket D
      (RealtimeKlinesAggregator._align_timestamp_to_interval t0 D) rest) :
    (st1.update_with_tick symbol price1 ts1 vol1 interval_str).get_current_kline
        symbol interval_str =
      some ⟨RealtimeKlinesAggregator._align_timestamp_to_interval ts1 D,
        price1, price1, price1, price1, some (vol1.getD 0)⟩ ∧
    (st2.update_with_tick symbol price2 ts2 vol2 interval_str).get_current_kline
        symbol interval_str =
      some ⟨bar2.time, bar2.«open», max bar2.high price2, min bar2.low price2,
        price2, some (bar2.volume.getD 0 + vol2.getD 0)⟩ ∧
    (runTicks st3 symbol interval_str ((p0, t0, v0) :: rest)).get_current_kline
        symbol interval_str =
      some ⟨RealtimeKlinesAggregator._align_timestamp_to_interval t0 D, p0,
        rest.foldl (fun h t => max h t.1) p0,
        rest.foldl (fun l t => min l t.1) p0,
        rest.foldl (fun _ t => t.1) p0,
        some (rest.foldl (fun v t => v + t.2.2) v0)⟩ := by
  have fresh : ∀ (st : RealtimeKlinesAggregator) (price ts : ℚ) (vol : Option ℚ),
      noCurrentBarAt st (symbol, interval_str)
        (RealtimeKlinesAggregator._align_timestamp_to_interval ts D) →
      (st.update_with_tick symbol price ts vol interval_str)._current_klines =
        setK (symbol, interval_str)
          ⟨RealtimeKlinesAggregator._align_timestamp_to_interval ts D,
            price, price, price, price, some (vol.getD 0)⟩
          st._current_klines := by
    intro st price ts vol hfr
    unfold RealtimeKlinesAggregator.update_with_tick
    rw [hI]
    cases hl : lookupK (symbol, interval_str) st._current_klines with
    | none => simp [hl]
    | some bar =>
      have hne := hfr bar hl
      simp [hl, hne]
  refine ⟨?_, ?_, ?_⟩
  · unfold RealtimeKlinesAggregator.get_current_kline
    rw [fresh st1 price1 ts1 vol1 h1, lookupK_setK_self]
  · unfold RealtimeKlinesAggregator.get_current_kline
    unfold RealtimeKlinesAggregator.update_with_tick
    rw [hI]
    simp only [h2, ← h2t, ne_eq, not_true_eq_false, if_false]
    rw [lookupK_setK_self]
  · simp only [runTicks]
    have hbar1 : lookupK (symbol, interval_str)
        (st3.update_with_tick symbol p0 t0 (some v0) interval_str)._current_klines =
        some ⟨RealtimeKlinesAggregator._align_timestamp_to_interval t0 D,
          p0, p0, p0, p0, some v0⟩ := by
      rw [fresh st3 p0 t0 (some v0) h3, lookupK_setK_self]
      rfl
    unfold RealtimeKlinesAggregator.get_current_kline
    exact runTicks_in_bucket symbol interval_str D
      (RealtimeKlinesAggregator._align_timestamp_to_interval t0 D) hI rest
      (st3.update_with_tick symbol p0 t0 (some v0) interval_str)
      ⟨RealtimeKlinesAggregator._align_timestamp_to_interval t0 D,
        p0, p0, p0, p0, some v0⟩ v0 hbar1 rfl rfl h3b

/-- The aggregator state of the C4 witness part (2): one current "X"/"1m"
bar for bucket 0. -/
def aggW2 : RealtimeKlinesAggregator := ⟨[(("X", "1m"), ⟨0, 9, 11, 8, 9, some 3⟩)]⟩

/-- Witness for C4 with interval "1m" (60 s): a fresh bar from a tick at
t=30, an in-place update of an existing bucket-0 bar by a tick at t=45,
and a three-tick bucket [100@5, 102@20, 99@50] with volumes 10, 5, 7. -/
theorem bar_aggregator_rollover_and_bucket_aggregation_witness :
    (RealtimeKlinesAggregator._get_interval_seconds "1m" = some 60 ∧
      noCurrentBarAt ⟨[]⟩ ("X", "1m")
        (RealtimeKlinesAggregator._align_timestamp_to_interval 30 60) ∧
      lookupK ("X", "1m") aggW2._current_klines = some ⟨0, 9, 11, 8, 9, some 3⟩ ∧
      (⟨0, 9, 11, 8, 9, some 3⟩ : KLineData).time =
        RealtimeKlinesAggregator._align_timestamp_to_interval 45 60 ∧
      noCurrentBarAt ⟨[]⟩ ("X", "1m")
        (RealtimeKlinesAggregator._align_timestamp_to_interval 5 60) ∧
      allTicksInBucket 60
        (RealtimeKlinesAggregator._align_timestamp_to_interval 5 60)
        [(102, 20, 5), (99, 50, 7)]) ∧
    ((RealtimeKlinesAggregator.update_with_tick ⟨[]⟩ "X" 100 30 (some 10)
          "1m").get_current_kline "X" "1m" =
        some ⟨RealtimeKlinesAggregator._align_timestamp_to_interval 30 60,
          100, 100, 100, 100, some ((some (10 : ℚ)).getD 0)⟩ ∧
      (aggW2.update_with_tick "X" 10 45 (some 2) "1m").get_current_kline "X" "1m" =
        some ⟨(⟨0, 9, 11, 8, 9, some 3⟩ : KLineData).time,
          (⟨0, 9, 11, 8, 9, some 3⟩ : KLineData).«open»,
          max (⟨0, 9, 11, 8, 9, some 3⟩ : KLineData).high 10,
          min (⟨0, 9, 11, 8, 9, some 3⟩ : KLineData).low 10, 10,
          some ((⟨0, 9, 11, 8, 9, some 3⟩ : KLineData).volume.getD 0 +
            (some (2 : ℚ)).getD 0)⟩ ∧
      (runTicks ⟨[]⟩ "X" "1m" ((100, 5, 10) :: [(102, 20, 5), (99, 50, 7)])).get_current_kline
          "X" "1m" =
        some ⟨RealtimeKlinesAggregator._align_timestamp_to_interval 5 60, 100,
          List.foldl (fun h t => max h t.1) 100 [(102, 20, 5), (99, 50, 7)],
          List.foldl (fun l t => min l t.1) 100 [(102, 20, 5), (99, 50, 7)],
          List.foldl (fun _ t => t.1) 100 [(102, 20, 5), (99, 50, 7)],
          some (List.foldl (fun v t => v + t.2.2) 10 [(102, 20, 5), (99, 50, 7)])⟩) :=
  ⟨⟨by decide,
    by simp [noCurrentBarAt, lookupK],
    by simp [aggW2, lookupK],
    by norm_num [RealtimeKlinesAggregator._align_timestamp_to_interval],
    by simp [noCurrentBarAt, lookupK],
    by norm_num [allTicksInBucket, RealtimeKlinesAggregator._align_timestamp_to_interval]⟩,
   bar_aggregator_rollover_and_bucket_aggregation "X" "1m" 60 (by decide)
     ⟨[]⟩ 100 30 (some 10) (by simp [noCurrentBarAt, lookupK])
     aggW2 ⟨0, 9, 11, 8, 9, some 3⟩ 10 45 (some 2)
     (by simp [aggW2, lookupK])
     (by norm_num [RealtimeKlinesAggregator._align_timestamp_to_interval])
     ⟨[]⟩ 100 5 10 [(102, 20, 5), (99, 50, 7)]
     (by simp [noCurrentBarAt, lookupK])
     (by norm_num [allTicksInBucket, RealtimeKlinesAggregator._align_timestamp_to_interval])⟩

/-! ### MockRealtimeDataProvider.subscribe (src/core_engine/realtime_feed.py) -/

/-- Subscriber state of `MockRealtimeDataProvider`: per-symbol callback
lists.  Callback objects (compared by Python object equality in the
`not in` test) are modelled as opaque numeric identifiers. -/
structure MockRealtimeDataProvider where
  _subscribers : List (String × List ℕ)
  deriving Repr, DecidableEq

namespace MockRealtimeDataProvider

/-- `MockRealtimeDataProvider.__init__`: one empty subscriber list per
configured symbol. -/
def init (symbols : List String) : MockRealtimeDataProvider :=
  ⟨symbols.map fun s => (s, [])⟩

/-- `MockRealtimeDataProvider.subscribe`: an unconfigured symbol draws a
printed warning and a fresh empty entry, after which the callback is
appended unless already present. -/
def subscribe (st : MockRealtimeDataProvider) (symbol : String) (cb : ℕ) :
    MockRealtimeDataProvider :=
  let subs :=
    match lookupA symbol st._subscribers with
    | none => setA symbol [] st._subscribers
    | some _ => st._subscribers
  match lookupA symbol subs with
  | some lst => if cb ∈ lst then ⟨subs⟩ else ⟨setA symbol (lst ++ [cb]) subs⟩
  | none => ⟨subs⟩

end MockRealtimeDataProvider

/-- C9 counterexample: subscribing callback 7 to the unconfigured symbol
"B" on a provider configured only for "A" registers the callback — the
subscriber list for "B" afterwards is `[7]`, contradicting the claim that
the subscription is rejected and the callback not registered. -/
theorem subscribe_unknown_symbol_claim_counterexample :
    lookupA "B" ((MockRealtimeDataProvider.init ["A"]).subscribe "B" 7)._subscribers =
      some [7] := by
  decide

/-- C9 (amended): For every symbol not present in the provider's symbol
configuration, `subscribe(symbol, callback)` emits a warning but does not
reject: no exception is raised, a fresh subscriber entry is created for
the symbol, and the callback IS registered as its sole subscriber. -/
theorem subscribe_unknown_symbol_registers
    (st : MockRealtimeDataProvider) (symbol : String) (cb : ℕ)
    (h : lookupA symbol st._subscribers = none) :
    lookupA symbol (st.subscribe symbol cb)._subscribers = some [cb] := by
  unfold MockRealtimeDataProvider.subscribe
  rw [h]
  simp only [lookupA_setA_self, List.not_mem_nil, if_neg, List.nil_append]
  simp [lookupA_setA_self]

/-- Witness for the amended C9 on a provider configured only for "A". -/
theorem subscribe_unknown_symbol_registers_witness :
    lookupA "B" (MockRealtimeDataProvider.init ["A"])._subscribers = none ∧
      lookupA "B"
          ((MockRealtimeDataProvider.init ["A"]).subscribe "B" 7)._subscribers =
        some [7] :=
  ⟨by decide, subscribe_unknown_symbol_registers _ "B" 7 (by decide)⟩

/-! ### RealtimeSimpleMAStrategy (src/strategies/simple_ma_strategy.py) -/

/-- A `DataTick` namedtuple; `price` is optional (the strategy guards
against a missing price). -/
structure DataTick where
  symbol : String
  timestamp : ℚ
  price : Option ℚ
  deriving Repr

/-- The strategy's signal strings as a closed enumeration. -/
inductive MASignal
  | WARMING_UP
  | HOLD
  | BUY
  | SELL
  | ERROR_MA_CALC
  deriving Repr, DecidableEq

/-- The last `n` elements of a list (`list(deque)[-n:]`). -/
def takeLast (n : ℕ) (l : List ℚ) : List ℚ := l.drop (l.length - n)

/-- `deque(maxlen=m).append`: append and drop from the front beyond `m`. -/
def dequePush (maxlen : ℕ) (l : List ℚ) (x : ℚ) : List ℚ :=
  let l' := l ++ [x]
  if maxlen < l'.length then l'.drop (l'.length - maxlen) else l'

/-- State of `RealtimeSimpleMAStrategy`. -/
structure RealtimeSimpleMAStrategy where
  symbol : String
  short_window : ℕ
  long_window : ℕ
  verbose : Bool
  prices : List ℚ
  short_ma : Option ℚ
  long_ma : Option ℚ
  prev_short_ma : Option ℚ
  prev_long_ma : Option ℚ
  current_signal : MASignal
  last_signal_timestamp : Option ℚ
  deriving Repr

namespace RealtimeSimpleMAStrategy

/-- `RealtimeSimpleMAStrategy.__init__` (the constructor also validates
`0 < short_window < long_window`; theorems carry that as hypotheses). -/
def init (symbol : String) (short_window long_window : ℕ) (verbose : Bool) :
    RealtimeSimpleMAStrategy :=
  { symbol := symbol, short_window := short_window, long_window := long_window
    verbose := verbose, prices := [], short_ma := none, long_ma := none
    prev_short_ma := none, prev_long_ma := none
    current_signal := MASignal.WARMING_UP, last_signal_timestamp := none }

/-- `RealtimeSimpleMAStrategy._calculate_sma`. -/
def _calculate_sma (st : RealtimeSimpleMAStrategy) (window_size : ℕ) : Option ℚ :=
  if window_size ≤ st.prices.length then
    if window_size = st.short_window then
      some ((takeLast st.short_window st.prices).sum / (st.short_window : ℚ))
    else if window_size = st.long_window then
      some (st.prices.sum / (st.prices.length : ℚ))
    else none
  else none

/-- `RealtimeSimpleMAStrategy.on_new_tick`.  The signal callback has no
effect on strategy state; `last_signal_timestamp` is set exactly when the
source sets it. -/
def on_new_tick (st : RealtimeSimpleMAStrategy) (data_tick : DataTick) :
    RealtimeSimpleMAStrategy :=
  if data_tick.symbol ≠ st.symbol then st
  else
    match data_tick.price with
    | none => st
    | some new_price =>
      let prices' := dequePush st.long_window st.prices new_price
      if prices'.length < st.long_window then
        { st with prices := prices', current_signal := MASignal.WARMING_UP }
      else
        let st1 := { st with prices := prices'
                             prev_short_ma := st.short_ma
                             prev_long_ma := st.long_ma }
        let short_ma := st1._calculate_sma st.short_window
        -- `self.long_ma = self._calculate_sma(self.long_window)` is
        -- immediately overwritten by the re-check block (source 186-195)
        let long_ma :=
          if prices'.length = st.long_window then
            some (prices'.sum / (st.long_window : ℚ))
          else if st.long_window ≤ prices'.length then
            some (prices'.sum / (prices'.length : ℚ))
          else none
        match short_ma, long_ma with
        | some s, some l =>
          let st2 := { st1 with short_ma := some s, long_ma := some l }
          let next : RealtimeSimpleMAStrategy × Bool :=
            match st.short_ma, st.long_ma with
            | some ps, some pl =>
              if ps ≤ pl ∧ l < s then
                ({ st2 with current_signal := MASignal.BUY }, true)
              else if pl ≤ ps ∧ s < l then
                ({ st2 with current_signal := MASignal.SELL }, true)
              else if st.current_signal = MASignal.WARMING_UP ∨
                  st.current_signal = MASignal.ERROR_MA_CALC then
                ({ st2 with current_signal := MASignal.HOLD }, true)
              else (st2, false)
            | _, _ =>
              if st.current_signal = MASignal.WARMING_UP then
                ({ st2 with current_signal := MASignal.HOLD }, true)
              else (st2, false)
          if next.2 ∨ (st.verbose ∧ st.current_signal ≠ next.1.current_signal) then
            { next.1 with last_signal_timestamp := some data_tick.timestamp }
          else next.1
        | _, _ =>
          { st1 with short_ma := st1._calculate_sma st.short_window
                     long_ma := long_ma
                     current_signal := MASignal.ERROR_MA_CALC }

end RealtimeSimpleMAStrategy

/-- Feed a price sequence (well-formed ticks for the strategy's symbol)
to a fresh moving-average strategy. -/
def runMA (short_window long_window : ℕ) (ps : List ℚ) : RealtimeSimpleMAStrategy :=
  ps.foldl (fun st p => st.on_new_tick ⟨"X", 0, some p⟩)
    (RealtimeSimpleMAStrategy.init "X" short_window long_window false)

/-- Mean of the last `short_window` prices (the claim's current short MA). -/
def refShortMA (short_window : ℕ) (ps : List ℚ) : ℚ :=
  (takeLast short_window ps).sum / (short_window : ℚ)

/-- Mean of the last `long_window` prices (the claim's current long MA). -/
def refLongMA (long_window : ℕ) (ps : List ℚ) : ℚ :=
  (takeLast long_window ps).sum / (long_window : ℚ)

/-- The claim's signal rule, written from the spec's words: WARMING_UP
below `long_window` prices, HOLD on the first full window (no prior MA
pair), then BUY exactly on an upward crossover of the previous/current MA
pairs, SELL exactly on a downward one, otherwise the last signal. -/
def maSpecSignal (short_window long_window : ℕ) (ps : List ℚ) : MASignal :=
  if ps.length < long_window then MASignal.WARMING_UP
  else if ps.length = long_window then MASignal.HOLD
  else if refShortMA short_window ps.dropLast ≤ refLongMA long_window ps.dropLast ∧
      refLongMA long_window ps < refShortMA short_window ps then MASignal.BUY
  else if refLongMA long_window ps.dropLast ≤ refShortMA short_window ps.dropLast ∧
      refShortMA short_window ps < refLongMA long_window ps then MASignal.SELL
  else maSpecSignal short_window long_window ps.dropLast
termination_by ps.length
decreasing_by
  simp only [List.length_dropLast]
  omega

/-! #### List-window lemmas for the moving-average proofs -/

theorem takeLast_of_length_le (n : ℕ) (l : List ℚ) (h : l.length ≤ n) :
    takeLast n l = l := by
  unfold takeLast
  rw [Nat.sub_eq_zero_of_le h, List.drop_zero]

theorem takeLast_length (n : ℕ) (l : List ℚ) :
    (takeLast n l).length = min n l.length := by
  unfold takeLast
  rw [List.length_drop]
  omega

theorem takeLast_append_of_le (long : ℕ) (ps : List ℚ) (p : ℚ)
    (hpos : 0 < long) (h : long ≤ ps.length) :
    (takeLast long ps ++ [p]).drop 1 = takeLast long (ps ++ [p]) := by
  unfold takeLast
  have h1 : (1 : ℕ) ≤ (ps.drop (ps.length - long)).length := by
    rw [List.length_drop]; omega
  rw [List.drop_append_of_le_length h1, List.drop_drop]
  have h2 : ps.length - long + 1 = (ps ++ [p]).length - long := by
    simp only [List.length_append, List.length_cons, List.length_nil]
    omega
  have h3 : (ps ++ [p]).length - long ≤ ps.length := by
    simp only [List.length_append, List.length_cons, List.length_nil]
    omega
  rw [h2, List.drop_append_of_le_length h3]

theorem takeLast_takeLast (short long : ℕ) (ps : List ℚ)
    (hsl : short ≤ long) (h : long ≤ ps.length) :
    takeLast short (takeLast long ps) = takeLast short ps := by
  unfold takeLast
  rw [List.drop_drop, List.length_drop]
  congr 1
  omega

theorem dequePush_small (long : ℕ) (l : List ℚ) (p : ℚ) (h : l.length < long) :
    dequePush long l p = l ++ [p] := by
  unfold dequePush
  rw [if_neg]
  simp only [List.length_append, List.length_cons, List.length_nil]
  omega

theorem dequePush_full (long : ℕ) (ps : List ℚ) (p : ℚ) (hpos : 0 < long)
    (h : long ≤ ps.length) :
    dequePush long (takeLast long ps) p = takeLast long (ps ++ [p]) := by
  unfold dequePush
  have hl : (takeLast long ps).length = long := by rw [takeLast_length]; omega
  rw [if_pos]
  · rw [List.length_append, hl]
    simp only [List.length_cons, List.length_nil]
    have : long + 1 - long = 1 := by omega
    rw [this, takeLast_append_of_le long ps p hpos h]
  · rw [List.length_append, hl]; simp

theorem maSpecSignal_mem (short long : ℕ) (ps : List ℚ) (h : long ≤ ps.length) :
    maSpecSignal short long ps = MASignal.HOLD ∨
      maSpecSignal short long ps = MASignal.BUY ∨
      maSpecSignal short long ps = MASignal.SELL := by
  generalize hn : ps.length = n
  induction n using Nat.strong_induction_on generalizing ps with
  | _ n ih =>
    rw [maSpecSignal]
    by_cases hlt : ps.length < long
    · omega
    · rw [if_neg hlt]
      by_cases heq : ps.length = long
      · rw [if_pos heq]; exact Or.inl rfl
      · rw [if_neg heq]
        split
        · exact Or.inr (Or.inl rfl)
        · split
          · exact Or.inr (Or.inr rfl)
          · have hd : ps.dropLast.length = n - 1 := by
              rw [List.length_dropLast]; omega
            exact ih (n - 1) (by omega) ps.dropLast
              (by rw [List.length_dropLast]; omega) hd

theorem on_new_tick_config (st : RealtimeSimpleMAStrategy) (t : DataTick) :
    (st.on_new_tick t).symbol = st.symbol ∧
      (st.on_new_tick t).short_window = st.short_window ∧
      (st.on_new_tick t).long_window = st.long_window ∧
      (st.on_new_tick t).verbose = st.verbose := by
  unfold RealtimeSimpleMAStrategy.on_new_tick
  repeat' (first | split | dsimp only)
  all_goals exact ⟨rfl, rfl, rfl, rfl⟩

theorem runMA_config (short long : ℕ) (ps : List ℚ) :
    (runMA short long ps).symbol = "X" ∧
      (runMA short long ps).short_window = short ∧
      (runMA short long ps).long_window = long ∧
      (runMA short long ps).verbose = false := by
  induction ps using List.reverseRecOn with
  | nil => exact ⟨rfl, rfl, rfl, rfl⟩
  | append_singleton ps p ih =>
    have hrun : runMA short long (ps ++ [p]) =
        (runMA short long ps).on_new_tick ⟨"X", 0, some p⟩ := by
      simp [runMA, List.foldl_append]
    obtain ⟨a, b, c, d⟩ := ih
    obtain ⟨a', b', c', d'⟩ := on_new_tick_config (runMA short long ps) ⟨"X", 0, some p⟩
    rw [hrun]
    exact ⟨a'.trans a, b'.trans b, c'.trans c, d'.trans d⟩

theorem tsUpdate_fields (x : RealtimeSimpleMAStrategy) (c : Prop) [Decidable c]
    (ts : ℚ) :
    ((if c then { x with last_signal_timestamp := some ts } else x).prices = x.prices) ∧
      ((if c then { x with last_signal_timestamp := some ts } else x).short_ma = x.short_ma) ∧
      ((if c then { x with last_signal_timestamp := some ts } else x).long_ma = x.long_ma) ∧
      ((if c then { x with last_signal_timestamp := some ts } else x).current_signal =
        x.current_signal) := by
  split <;> exact ⟨rfl, rfl, rfl, rfl⟩

theorem calculate_sma_short (st : RealtimeSimpleMAStrategy)
    (h : st.short_window ≤ st.prices.length) :
    st._calculate_sma st.short_window =
      some ((takeLast st.short_window st.prices).sum / (st.short_window : ℚ)) := by
  unfold RealtimeSimpleMAStrategy._calculate_sma
  rw [if_pos h, if_pos rfl]

theorem runMA_invariant (short long : ℕ) (h0 : 0 < short) (hsl : short < long)
    (ps : List ℚ) :
    (runMA short long ps).prices = takeLast long ps ∧
      ((runMA short long ps).short_ma =
        if long ≤ ps.length then some (refShortMA short ps) else none) ∧
      ((runMA short long ps).long_ma =
        if long ≤ ps.length then some (refLongMA long ps) else none) ∧
      (runMA short long ps).current_signal = maSpecSignal short long ps := by
  have hlong : 0 < long := by omega
  induction ps using List.reverseRecOn with
  | nil =>
    refine ⟨by simp [runMA, RealtimeSimpleMAStrategy.init, takeLast], ?_, ?_, ?_⟩
    · rw [if_neg (by simp; omega)]; rfl
    · rw [if_neg (by simp; omega)]; rfl
    · rw [maSpecSignal, if_pos (by simp; omega)]; rfl
  | append_singleton ps p ih =>
    obtain ⟨hP, hS, hL, hSig⟩ := ih
    obtain ⟨hsym, hsw, hlw, hv⟩ := runMA_config short long ps
    have hrun : runMA short long (ps ++ [p]) =
        (runMA short long ps).on_new_tick ⟨"X", 0, some p⟩ := by
      simp [runMA, List.foldl_append]
    rw [hrun]
    unfold RealtimeSimpleMAStrategy.on_new_tick
    rw [hsym]
    rw [if_neg (by simp)]
    dsimp only
    rw [hlw, hP]
    by_cases hcase : ps.length + 1 < long
    · -- still warming up
      have hlt : ps.length < long := by omega
      rw [takeLast_of_length_le long ps (le_of_lt hlt),
        dequePush_small long ps p hlt]
      rw [if_pos (by simp; omega)]
      refine ⟨?_, ?_, ?_, ?_⟩
      · show ps ++ [p] = takeLast long (ps ++ [p])
        rw [takeLast_of_length_le long (ps ++ [p]) (by simp; omega)]
      · show (runMA short long ps).short_ma = _
        rw [hS, if_neg (by omega), if_neg (by simp; omega)]
      · show (runMA short long ps).long_ma = _
        rw [hL, if_neg (by omega), if_neg (by simp; omega)]
      · show MASignal.WARMING_UP = _
        rw [maSpecSignal, if_pos (by simp; omega)]
    · push_neg at hcase
      by_cases heq : ps.length + 1 = long
      · have hlt : ps.length < long := by omega
        rw [takeLast_of_length_le long ps (le_of_lt hlt),
          dequePush_small long ps p hlt]
        rw [if_neg (by simp; omega)]
        have hS' : (runMA short long ps).short_ma = none := by
          rw [hS, if_neg (by omega)]
        have hL' : (runMA short long ps).long_ma = none := by
          rw [hL, if_neg (by omega)]
        have hSig' : (runMA short long ps).current_signal = MASignal.WARMING_UP := by
          rw [hSig, maSpecSignal, if_pos hlt]
        have hlen : (ps ++ [p]).length = long := by simp; omega
        have hshle : short ≤ (ps ++ [p]).length := by simp; omega
        have hsle : short ≤ long := le_of_lt hsl
        simp only [hS', hL', hSig', hsw, hv, hlen, hshle, hsle,
          RealtimeSimpleMAStrategy._calculate_sma, if_true, ite_true,
          eq_self_iff_true, Bool.false_eq_true, false_and, or_false, or_true, true_or]
        refine ⟨(takeLast_of_length_le long (ps ++ [p]) (le_of_eq hlen)).symm, ?_, ?_, ?_⟩
        · rw [if_pos (le_refl long)]; rfl
        · rw [if_pos (le_refl long)]
          unfold refLongMA
          rw [takeLast_of_length_le long (ps ++ [p]) (le_of_eq hlen)]
        · rw [maSpecSignal, if_neg (by omega), if_pos hlen]
      · have hge : long ≤ ps.length := by omega
        rw [dequePush_full long ps p hlong hge]
        have hlen2 : (takeLast long (ps ++ [p])).length = long := by
          rw [takeLast_length]; simp; omega
        rw [if_neg (by rw [hlen2]; omega)]
        have hS2 : (runMA short long ps).short_ma = some (refShortMA short ps) := by
          rw [hS, if_pos hge]
        have hL2 : (runMA short long ps).long_ma = some (refLongMA long ps) := by
          rw [hL, if_pos hge]
        have hsle : short ≤ long := le_of_lt hsl
        have hshle2 : short ≤ (takeLast long (ps ++ [p])).length := by
          rw [hlen2]; exact hsle
        have hmem := maSpecSignal_mem short long ps hge
        have hnc3 : ¬((runMA short long ps).current_signal = MASignal.WARMING_UP ∨
            (runMA short long ps).current_signal = MASignal.ERROR_MA_CALC) := by
          rw [hSig]
          rcases hmem with hm | hm | hm <;> rw [hm] <;> simp
        have htt : takeLast short (takeLast long (ps ++ [p])) = takeLast short (ps ++ [p]) :=
          takeLast_takeLast short long (ps ++ [p]) hsle (by simp; omega)
        have hca : long ≤ (ps ++ [p]).length := by simp; omega
        have hdrop : (ps ++ [p]).dropLast = ps := List.dropLast_concat
        simp only [hS2, hL2, hsw, hv, hlen2, hshle2, hsle, hca,
          RealtimeSimpleMAStrategy._calculate_sma, htt, refShortMA, refLongMA,
          if_true, ite_true, eq_self_iff_true, Bool.false_eq_true, false_and,
          or_false, hnc3, if_false, ite_false]
        rw [maSpecSignal]
        simp only [refShortMA, refLongMA, hdrop]
        rw [if_neg (show ¬((ps ++ [p]).length < long) by simp; omega),
          if_neg (show ¬((ps ++ [p]).length = long) by simp; omega)]
        by_cases c1 : (takeLast short ps).sum / (short : ℚ) ≤
              (takeLast long ps).sum / (long : ℚ) ∧
            (takeLast long (ps ++ [p])).sum / (long : ℚ) <
              (takeLast short (ps ++ [p])).sum / (short : ℚ)
        · simp [c1]
        · by_cases c2 : (takeLast long ps).sum / (long : ℚ) ≤
                (takeLast short ps).sum / (short : ℚ) ∧
              (takeLast short (ps ++ [p])).sum / (short : ℚ) <
                (takeLast long (ps ++ [p])).sum / (long : ℚ)
          · simp [c1, c2]
          · simp [c1, c2, hSig]

/-- C5: For every price sequence fed to the moving-average strategy with
`0 < shortWindow < longWindow`: while the history holds fewer than
`longWindow` prices the signal is WARMING_UP; the tick that first fills
the window (no prior MA pair yet) yields HOLD; afterwards the signal
becomes BUY exactly when the previous shortMA ≤ previous longMA and the
current shortMA > current longMA, SELL exactly when the previous
shortMA ≥ previous longMA and the current shortMA < current longMA, and
otherwise the last signal is kept — i.e. the strategy's signal equals the
spec-side recursion `maSpecSignal` on the same prices. -/
theorem ma_strategy_signal_matches_spec (short long : ℕ)
    (h0 : 0 < short) (hsl : short < long) (ps : List ℚ) :
    (runMA short long ps).current_signal = maSpecSignal short long ps :=
  (runMA_invariant short long h0 hsl ps).2.2.2

/-- Witness for C5 with windows (2, 3) on the spec's example prices. -/
theorem ma_strategy_signal_matches_spec_witness :
    ((0 : ℕ) < 2 ∧ (2 : ℕ) < 3) ∧
      (runMA 2 3 [100, 102, 105, 103, 108]).current_signal =
        maSpecSignal 2 3 [100, 102, 105, 103, 108] :=
  ⟨⟨by decide, by decide⟩,
   ma_strategy_signal_matches_spec 2 3 (by decide) (by decide)
     [100, 102, 105, 103, 108]⟩

/-! ### RealtimeRSIStrategy (src/strategies/realtime_rsi_strategy.py)

The RSI computation `_calculate_rsi_values`, imported by the realtime
strategy from `src/strategies/rsi_strategy.py`, is not present in that
file (or anywhere under src/); only its caller `_update_rsi` is.  It is
modelled below from the spec. -/

/-- The realtime RSI strategy's signal strings. -/
inductive RSISignal
  | BUY
  | SELL
  | HOLD
  | ERROR_RSI_CALC
  deriving Repr, DecidableEq

/-- Wilder recursive smoothing of a series (alpha = 1/period), seeded at
the first element; `none` on an empty series. -/
def wilderSmooth (period : ℕ) : List ℚ → Option ℚ
  | [] => none
  | x :: rest =>
    some (rest.foldl (fun a g => (((period : ℚ) - 1) * a + g) / (period : ℚ)) x)

/-- Modelled from the spec: the last value of `_calculate_rsi_values`
(missing from src/strategies/rsi_strategy.py) applied to a price history
— Wilder smoothing of the average gain and loss over `period`,
`RS = avgGain/avgLoss`, `RSI = 100 − 100/(1+RS)`; per §4.4 it needs at
least `period + 1` prices (`period` price changes) and is undefined
(`None`) when the average loss is zero. -/
def _calculate_rsi_values_last (history : List ℚ) (period : ℕ) : Option ℚ :=
  let deltas := List.zipWith (fun a b => a - b) history.tail history
  if deltas.length < period then none
  else
    let gains := deltas.map fun d => max d 0
    let losses := deltas.map fun d => max (-d) 0
    match wilderSmooth period gains, wilderSmooth period losses with
    | some avg_gain, some avg_loss =>
      if avg_loss = 0 then none
      else some (100 - 100 / (1 + avg_gain / avg_loss))
    | _, _ => none

/-- State of `RealtimeRSIStrategy`. -/
structure RealtimeRSIStrategy where
  symbol : String
  period : ℕ
  oversold_threshold : ℚ
  overbought_threshold : ℚ
  verbose : Bool
  price_history : List ℚ
  current_rsi : Option ℚ
  previous_rsi : Option ℚ
  ticks_received : ℕ
  deriving Repr

namespace RealtimeRSIStrategy

/-- `RealtimeRSIStrategy.__init__` / `start` (empty history, no RSIs). -/
def init (symbol : String) (period : ℕ) (oversold overbought : ℚ)
    (verbose : Bool) : RealtimeRSIStrategy :=
  { symbol := symbol, period := period, oversold_threshold := oversold
    overbought_threshold := overbought, verbose := verbose
    price_history := [], current_rsi := none, previous_rsi := none
    ticks_received := 0 }

/-- `RealtimeRSIStrategy._update_rsi`. -/
def _update_rsi (st : RealtimeRSIStrategy) : Option ℚ :=
  if st.price_history.length < st.period then none
  else _calculate_rsi_values_last st.price_history st.period

/-- `RealtimeRSIStrategy.on_new_tick`: returns the new state and the
signal kind passed to the callback (`none` during warm-up, when no event
is emitted). -/
def on_new_tick (st : RealtimeRSIStrategy) (tick : DataTick) :
    RealtimeRSIStrategy × Option RSISignal :=
  if tick.symbol ≠ st.symbol then (st, none)
  else
    match tick.price with
    | none => (st, none)
    | some price =>
      let ticks' := st.ticks_received + 1
      let hist' := dequePush (st.period + 5) st.price_history price
      let st' := { st with ticks_received := ticks', price_history := hist' }
      if ticks' < st.period + 1 then
        -- warm-up: compute a first RSI once `period` ticks have arrived
        if st.period ≤ ticks' then
          ({ st' with current_rsi := st'._update_rsi }, none)
        else (st', none)
      else
        let prev := st.current_rsi
        let cur := st'._update_rsi
        let st2 := { st' with previous_rsi := prev, current_rsi := cur }
        let signal_type : RSISignal :=
          match cur, prev with
          | some c, some p0 =>
            if p0 ≤ st.oversold_threshold ∧ st.oversold_threshold < c then
              RSISignal.BUY
            else if st.overbought_threshold ≤ p0 ∧ c < st.overbought_threshold then
              RSISignal.SELL
            else RSISignal.HOLD
          | _, _ => RSISignal.ERROR_RSI_CALC
        (st2, some signal_type)

end RealtimeRSIStrategy

/-- Feed a price sequence to a fresh RSI strategy (state only). -/
def runRSIState (period : ℕ) (oversold overbought : ℚ) (ps : List ℚ) :
    RealtimeRSIStrategy :=
  ps.foldl (fun st p => (st.on_new_tick ⟨"X", 0, some p⟩).1)
    (RealtimeRSIStrategy.init "X" period oversold overbought false)

/-- The signal kinds emitted while feeding the prices to a strategy
starting in state `st`, in order. -/
def runRSIEventsAux (st : RealtimeRSIStrategy) : List ℚ → List RSISignal
  | [] => []
  | p :: rest =>
    (st.on_new_tick ⟨"X", 0, some p⟩).2.toList ++
      runRSIEventsAux (st.on_new_tick ⟨"X", 0, some p⟩).1 rest

/-- The signal kinds emitted while feeding a price sequence to a fresh
RSI strategy. -/
def runRSIEvents (period : ℕ) (oversold overbought : ℚ) (ps : List ℚ) :
    List RSISignal :=
  runRSIEventsAux (RealtimeRSIStrategy.init "X" period oversold overbought false) ps

/-- The RSI trajectory: the strategy's RSI after the prices `ps`, i.e.
`_update_rsi` on the bounded history of the last `period + 5` prices. -/
def rsiAt (period : ℕ) (ps : List ℚ) : Option ℚ :=
  if (takeLast (period + 5) ps).length < period then none
  else _calculate_rsi_values_last (takeLast (period + 5) ps) period

/-- A downward crossing of the overbought threshold at the tick appending
`p` to `ps`: previous RSI at or above the threshold, new RSI strictly
below (both defined). -/
def isDownCross (period : ℕ) (overbought : ℚ) (ps : List ℚ) (p : ℚ) : Bool :=
  match rsiAt period ps, rsiAt period (ps ++ [p]) with
  | some p0, some c => overbought ≤ p0 ∧ c < overbought
  | _, _ => false

/-- The number of SELLs the claim's rule prescribes for a price sequence:
one per post-warm-up downward crossing of the overbought threshold. -/
def specSellCountAux (period : ℕ) (overbought : ℚ) :
    List ℚ → List ℚ → ℕ
  | _, [] => 0
  | pre, p :: rest =>
    (if period + 1 ≤ pre.length + 1 ∧ isDownCross period overbought pre p then 1 else 0) +
      specSellCountAux period overbought (pre ++ [p]) rest

def specSellCount (period : ℕ) (overbought : ℚ) (ps : List ℚ) : ℕ :=
  specSellCountAux period overbought [] ps

theorem dequePush_takeLast (m : ℕ) (l : List ℚ) (x : ℚ) (hm : 0 < m) :
    dequePush m (takeLast m l) x = takeLast m (l ++ [x]) := by
  by_cases h : m ≤ l.length
  · exact dequePush_full m l x hm h
  · push_neg at h
    rw [takeLast_of_length_le m l (le_of_lt h), dequePush_small m l x h,
      takeLast_of_length_le]
    simp only [List.length_append, List.length_cons, List.length_nil]
    omega

theorem runRSIState_invariant (period : ℕ) (OS OB : ℚ) (ps : List ℚ) :
    (runRSIState period OS OB ps).symbol = "X" ∧
      (runRSIState period OS OB ps).period = period ∧
      (runRSIState period OS OB ps).oversold_threshold = OS ∧
      (runRSIState period OS OB ps).overbought_threshold = OB ∧
      (runRSIState period OS OB ps).ticks_received = ps.length ∧
      (runRSIState period OS OB ps).price_history = takeLast (period + 5) ps ∧
      ((runRSIState period OS OB ps).current_rsi =
        if period ≤ ps.length then rsiAt period ps else none) := by
  induction ps using List.reverseRecOn with
  | nil =>
    refine ⟨rfl, rfl, rfl, rfl, rfl, by simp [runRSIState, RealtimeRSIStrategy.init, takeLast], ?_⟩
    by_cases hp : period = 0
    · subst hp
      simp [runRSIState, RealtimeRSIStrategy.init, rsiAt, takeLast,
        _calculate_rsi_values_last, wilderSmooth]
    · rw [if_neg (by simp; omega)]
      simp [runRSIState, RealtimeRSIStrategy.init]
  | append_singleton ps p ih =>
    obtain ⟨hsym, hper, hos, hob, htk, hph, hcur⟩ := ih
    have hrun : runRSIState period OS OB (ps ++ [p]) =
        ((runRSIState period OS OB ps).on_new_tick ⟨"X", 0, some p⟩).1 := by
      simp [runRSIState, List.foldl_append]
    rw [hrun]
    unfold RealtimeRSIStrategy.on_new_tick
    rw [hsym, if_neg (by simp)]
    dsimp only
    rw [hper, htk, hph, dequePush_takeLast (period + 5) ps p (by omega)]
    have hupd : ∀ st : RealtimeRSIStrategy, st.period = period →
        st.price_history = takeLast (period + 5) (ps ++ [p]) →
        st._update_rsi = rsiAt period (ps ++ [p]) := by
      intro st h1 h2
      unfold RealtimeRSIStrategy._update_rsi rsiAt
      rw [h1, h2]
    by_cases hwarm : ps.length + 1 < period + 1
    · rw [if_pos hwarm]
      by_cases hfirst : period ≤ ps.length + 1
      · rw [if_pos hfirst]
        refine ⟨rfl, rfl, hos, hob, by simp, rfl, ?_⟩
        rw [if_pos (by simp; omega)]
        exact hupd _ rfl rfl
      · rw [if_neg hfirst]
        refine ⟨rfl, rfl, hos, hob, by simp, rfl, ?_⟩
        rw [hcur, if_neg (by omega), if_neg (by simp; omega)]
    · rw [if_neg hwarm]
      refine ⟨rfl, rfl, hos, hob, by simp, rfl, ?_⟩
      rw [if_pos (by simp; omega)]
      exact hupd _ rfl rfl

theorem step_emits_sell_iff (period : ℕ) (OS OB : ℚ) (hthr : OS < OB)
    (pre : List ℚ) (p : ℚ) :
    ((runRSIState period OS OB pre).on_new_tick ⟨"X", 0, some p⟩).2 =
        some RSISignal.SELL ↔
      (period + 1 ≤ pre.length + 1 ∧ isDownCross period OB pre p = true) := by
  obtain ⟨hsym, hper, hos, hob, htk, hph, hcur⟩ :=
    runRSIState_invariant period OS OB pre
  unfold RealtimeRSIStrategy.on_new_tick
  rw [hsym, if_neg (by simp)]
  dsimp only
  rw [hper, htk, hph, hos, hob, dequePush_takeLast (period + 5) pre p (by omega)]
  by_cases hwarm : pre.length + 1 < period + 1
  · rw [if_pos hwarm]
    constructor
    · intro h
      exfalso
      by_cases hfirst : period ≤ pre.length + 1
      · rw [if_pos hfirst] at h; simp at h
      · rw [if_neg hfirst] at h; simp at h
    · rintro ⟨h1, -⟩; omega
  · rw [if_neg hwarm]
    have hprev : (runRSIState period OS OB pre).current_rsi = rsiAt period pre := by
      rw [hcur, if_pos (by omega)]
    rw [hprev]
    simp only [RealtimeRSIStrategy._update_rsi]
    unfold isDownCross rsiAt
    cases hc : (if (takeLast (period + 5) (pre ++ [p])).length < period then none
        else _calculate_rsi_values_last (takeLast (period + 5) (pre ++ [p])) period) with
    | none =>
      cases hp0 : (if (takeLast (period + 5) pre).length < period then none
          else _calculate_rsi_values_last (takeLast (period + 5) pre) period) <;> simp
    | some c =>
      cases hp0 : (if (takeLast (period + 5) pre).length < period then none
          else _calculate_rsi_values_last (takeLast (period + 5) pre) period) with
      | none => simp
      | some p0 =>
        dsimp only
        by_cases hbuy : p0 ≤ OS ∧ OS < c
        · rw [if_pos hbuy]
          have hnsell : ¬(OB ≤ p0 ∧ c < OB) := by
            rintro ⟨h1, -⟩
            exact absurd (le_trans h1 hbuy.1) (not_le.mpr hthr)
          simp [hnsell]
        · rw [if_neg hbuy]
          by_cases hsell : OB ≤ p0 ∧ c < OB
          · simp [hsell]; omega
          · simp [hsell]

theorem runRSIEventsAux_count (period : ℕ) (OS OB : ℚ) (hthr : OS < OB)
    (rest : List ℚ) :
    ∀ pre : List ℚ,
      (runRSIEventsAux (runRSIState period OS OB pre) rest).count RSISignal.SELL =
        specSellCountAux period OB pre rest := by
  induction rest with
  | nil => intro pre; rfl
  | cons p rest ih =>
    intro pre
    rw [runRSIEventsAux]
    have hstate : ((runRSIState period OS OB pre).on_new_tick ⟨"X", 0, some p⟩).1 =
        runRSIState period OS OB (pre ++ [p]) := by
      simp [runRSIState, List.foldl_append]
    rw [hstate, List.count_append, ih (pre ++ [p]), specSellCountAux]
    congr 1
    by_cases hcond : period + 1 ≤ pre.length + 1 ∧ isDownCross period OB pre p = true
    · rw [if_pos hcond,
        (step_emits_sell_iff period OS OB hthr pre p).mpr hcond]
      rfl
    · rw [if_neg hcond]
      have hne : ((runRSIState period OS OB pre).on_new_tick ⟨"X", 0, some p⟩).2 ≠
          some RSISignal.SELL := fun h =>
        hcond ((step_emits_sell_iff period OS OB hthr pre p).mp h)
      cases hev : ((runRSIState period OS OB pre).on_new_tick ⟨"X", 0, some p⟩).2 with
      | none => rfl
      | some s =>
        cases s with
        | SELL => exact absurd hev hne
        | BUY => rfl
        | HOLD => rfl
        | ERROR_RSI_CALC => rfl

/-- C7: For every tick past warm-up, the RSI strategy emits SELL exactly
when the previous RSI is at or above `overboughtThreshold` and the new RSI
is strictly below it (both defined); consequently, over any price
sequence, the number of emitted SELLs equals the number of post-warm-up
downward crossings of the overbought threshold — one SELL per crossing,
not one per tick while the RSI stays below the threshold. -/
theorem rsi_sell_exactly_on_down_crossings (period : ℕ) (OS OB : ℚ)
    (hthr : OS < OB) (pre : List ℚ) (p : ℚ) (ps : List ℚ) :
    (((runRSIState period OS OB pre).on_new_tick ⟨"X", 0, some p⟩).2 =
        some RSISignal.SELL ↔
      (period + 1 ≤ pre.length + 1 ∧ isDownCross period OB pre p = true)) ∧
      (runRSIEvents period OS OB ps).count RSISignal.SELL =
        specSellCount period OB ps :=
  ⟨step_emits_sell_iff period OS OB hthr pre p,
   runRSIEventsAux_count period OS OB hthr ps []⟩

/-- Witness for C7 at period 2, thresholds 30/70, and small price lists. -/
theorem rsi_sell_exactly_on_down_crossings_witness :
    ((30 : ℚ) < 70) ∧
      ((((runRSIState 2 30 70 [1, 2]).on_new_tick ⟨"X", 0, some 3⟩).2 =
          some RSISignal.SELL ↔
        (2 + 1 ≤ [(1 : ℚ), 2].length + 1 ∧ isDownCross 2 70 [1, 2] 3 = true)) ∧
        (runRSIEvents 2 30 70 [1, 2, 3, 4]).count RSISignal.SELL =
          specSellCount 2 70 [1, 2, 3, 4]) :=
  ⟨by norm_num,
   rsi_sell_exactly_on_down_crossings 2 30 70 (by norm_num) [1, 2] 3 [1, 2, 3, 4]⟩

/-! ### Batch RSI computations (src/strategies/rsi_strategy.py and
src/core_engine/strategies/rsi_strategy.py) -/

/-- `series.diff(1)`: NaN (none) at index 0. -/
def pdDiff : List ℚ → List (Option ℚ)
  | [] => []
  | x :: xs => none :: List.zipWith (fun a b => some (a - b)) xs (x :: xs)

/-- `np.where(delta > 0, delta, 0)` elementwise (NaN compares false,
giving 0 at index 0). -/
def gainOf : Option ℚ → ℚ
  | some x => if 0 < x then x else 0
  | none => 0

/-- `np.where(delta < 0, -delta, 0)` elementwise. -/
def lossOf : Option ℚ → ℚ
  | some x => if x < 0 then -x else 0
  | none => 0

/-- Tail of `ewm(com=period-1, adjust=False).mean()`: the recursion
`y' = ((period-1)·y + x)/period` carried from state `y`. -/
def ewmAux (period : ℕ) (y : ℚ) : List ℚ → List ℚ
  | [] => []
  | x :: xs =>
    (((period : ℚ) - 1) * y + x) / (period : ℚ) ::
      ewmAux period ((((period : ℚ) - 1) * y + x) / (period : ℚ)) xs

/-- `ewm(com=period-1, adjust=False).mean()`: seeded at the first
observation. -/
def ewmWilder (period : ℕ) : List ℚ → List ℚ
  | [] => []
  | x :: xs => x :: ewmAux period x xs

/-- The `rsi` column of `rsi_strategy` (src/strategies/rsi_strategy.py)
at row `i`: EWM-smoothed gains/losses with `min_periods=period`,
`rs = avg_gain/avg_loss` with `±inf` replaced by NaN (and `0/0` NaN),
`rsi = 100 − 100/(1+rs)`.  NaN is `none`. -/
def rsi_strategy_rsi (prices : List ℚ) (period : ℕ) (i : ℕ) : Option ℚ :=
  let delta := pdDiff prices
  let gain := delta.map gainOf
  let loss := delta.map lossOf
  let avg_gain := ewmWilder period gain
  let avg_loss := ewmWilder period loss
  if i < prices.length then
    if i + 1 < period then none
    else
      let g := avg_gain.getD i 0
      let l := avg_loss.getD i 0
      if l = 0 then none
      else some (100 - 100 / (1 + g / l))
  else none

/-- `rolling(window=period).mean()` at row `i` (`min_periods` defaults to
the window). -/
def rollingMeanAt (period : ℕ) (xs : List ℚ) (i : ℕ) : Option ℚ :=
  if i < xs.length then
    if i + 1 < period then none
    else some (((xs.take (i + 1)).drop (i + 1 - period)).sum / (period : ℚ))
  else none

namespace RSIStrategy

/-- `RSIStrategy._calculate_rsi` (src/core_engine/strategies/rsi_strategy.py)
at row `i`: SIMPLE ROLLING MEANS of gains and losses (not Wilder
smoothing), `rs = gain/loss` (`x/0 = inf` for `x > 0`, giving `rsi = 100`;
`0/0` NaN), `rsi = 100 − 100/(1+rs)`. -/
def _calculate_rsi (prices : List ℚ) (period : ℕ) (i : ℕ) : Option ℚ :=
  let delta := pdDiff prices
  let gain := delta.map gainOf
  let loss := delta.map lossOf
  match rollingMeanAt period gain i, rollingMeanAt period loss i with
  | some g, some l =>
    if l = 0 then (if g = 0 then none else some 100)
    else some (100 - 100 / (1 + g / l))
  | _, _ => none

end RSIStrategy

/-- The claim's reference average gain: Wilder's recursive smoothing
(alpha = 1/period) of the gain series, the first price's undefined change
counting as zero gain — exactly the seed `ewm(adjust=False)` uses. -/
def wilderAvgGain (prices : List ℚ) (period : ℕ) : ℕ → ℚ
  | 0 => 0
  | t + 1 =>
    (((period : ℚ) - 1) * wilderAvgGain prices period t +
      max (prices.getD (t + 1) 0 - prices.getD t 0) 0) / (period : ℚ)

/-- The claim's reference average loss under Wilder's recursive smoothing. -/
def wilderAvgLoss (prices : List ℚ) (period : ℕ) : ℕ → ℚ
  | 0 => 0
  | t + 1 =>
    (((period : ℚ) - 1) * wilderAvgLoss prices period t +
      max (prices.getD t 0 - prices.getD (t + 1) 0) 0) / (period : ℚ)

/-- The claim's reference RSI, written from its words: average gain and
loss over `period` with Wilder's recursive smoothing, `RS = avgGain/avgLoss`,
`RSI = 100 − 100/(1+RS)`; defined from the `period`-th observation on and
only when the average loss is non-zero. -/
def rsiWilderRef (prices : List ℚ) (period : ℕ) (i : ℕ) : Option ℚ :=
  if i < prices.length ∧ period ≤ i + 1 ∧ wilderAvgLoss prices period i ≠ 0 then
    some (100 - 100 /
      (1 + wilderAvgGain prices period i / wilderAvgLoss prices period i))
  else none

/-- C8 counterexample: the backtest `RSIStrategy._calculate_rsi` — one of
the claim's cited RSI computations — uses simple rolling means, and on
prices [1, 3, 2, 4, 3] with period 2 at the last row it yields 200/3,
while the Wilder-smoothing reference yields 50, both defined; so the
strategy's RSI does not equal the Wilder reference wherever defined. -/
theorem rolling_rsi_not_wilder_counterexample :
    RSIStrategy._calculate_rsi [1, 3, 2, 4, 3] 2 4 = some (200 / 3) ∧
      rsiWilderRef [1, 3, 2, 4, 3] 2 4 = some 50 ∧
      ((200 : ℚ) / 3) ≠ 50 := by
  refine ⟨?_, ?_, by norm_num⟩
  · norm_num [RSIStrategy._calculate_rsi, pdDiff, gainOf, lossOf, rollingMeanAt]
  · norm_num [rsiWilderRef, wilderAvgGain, wilderAvgLoss]

/-! Correspondence between the pandas EWM pipeline and the claim's
Wilder recursion. -/

theorem gainOf_some (d : ℚ) : gainOf (some d) = max d 0 := by
  rcases le_or_lt d 0 with h | h
  · simp [gainOf, not_lt.mpr h, max_eq_right h]
  · simp [gainOf, h, max_eq_left (le_of_lt h)]

theorem lossOf_some (d : ℚ) : lossOf (some d) = max (-d) 0 := by
  rcases lt_trichotomy d 0 with h | h | h
  · simp [lossOf, h, max_eq_left (show (0 : ℚ) ≤ -d by linarith)]
  · subst h; simp [lossOf]
  · simp [lossOf, not_lt.mpr (le_of_lt h),
      max_eq_right (show -d ≤ (0 : ℚ) by linarith)]

theorem pdDiff_length (prices : List ℚ) : (pdDiff prices).length = prices.length := by
  cases prices with
  | nil => rfl
  | cons x xs => simp [pdDiff]

theorem map_pdDiff_getD_zero (g : Option ℚ → ℚ) (hg : g none = 0)
    (prices : List ℚ) (h : prices ≠ []) :
    ((pdDiff prices).map g).getD 0 0 = 0 := by
  cases prices with
  | nil => exact absurd rfl h
  | cons x xs => simp [pdDiff, hg]

theorem map_pdDiff_getD_succ (g : Option ℚ → ℚ) (prices : List ℚ) (t : ℕ)
    (h : t + 1 < prices.length) :
    ((pdDiff prices).map g).getD (t + 1) 0 =
      g (some (prices.getD (t + 1) 0 - prices.getD t 0)) := by
  cases prices with
  | nil => simp at h
  | cons x xs =>
    have hx : t < xs.length := by simp at h; omega
    have hz : t < (List.zipWith (fun a b => some (a - b)) xs (x :: xs)).length := by
      simp; omega
    show ((List.zipWith (fun a b => some (a - b)) xs (x :: xs)).map g).getD t 0 = _
    rw [List.getD_eq_getElem _ _ (by simpa using hz), List.getElem_map,
      List.getElem_zipWith]
    rw [List.getD_eq_getElem (x :: xs) 0 h,
      List.getD_eq_getElem (x :: xs) 0 (show t < (x :: xs).length by simp; omega),
      List.getElem_cons_succ]

theorem ewmAux_length (period : ℕ) (y : ℚ) (xs : List ℚ) :
    (ewmAux period y xs).length = xs.length := by
  induction xs generalizing y with
  | nil => rfl
  | cons x xs ih => simp [ewmAux, ih]

theorem ewmWilder_length (period : ℕ) (xs : List ℚ) :
    (ewmWilder period xs).length = xs.length := by
  cases xs with
  | nil => rfl
  | cons x xs => simp [ewmWilder, ewmAux_length]

theorem ewmAux_getD_succ (period : ℕ) (xs : List ℚ) :
    ∀ (y : ℚ) (i : ℕ), i + 1 < xs.length →
      (ewmAux period y xs).getD (i + 1) 0 =
        (((period : ℚ) - 1) * (ewmAux period y xs).getD i 0 + xs.getD (i + 1) 0) /
          (period : ℚ) := by
  induction xs with
  | nil => intro y i h; simp at h
  | cons x xs ih =>
    intro y i h
    cases i with
    | zero =>
      cases xs with
      | nil => simp at h
      | cons z rest => rfl
    | succ i =>
      have h' : i + 1 < xs.length := by simp at h; omega
      rw [show (ewmAux period y (x :: xs)).getD (i + 1 + 1) 0 =
        (ewmAux period ((((period : ℚ) - 1) * y + x) / (period : ℚ)) xs).getD (i + 1) 0
        from rfl]
      rw [ih _ _ h']
      rfl

theorem ewmWilder_getD_succ (period : ℕ) (xs : List ℚ) (i : ℕ)
    (h : i + 1 < xs.length) :
    (ewmWilder period xs).getD (i + 1) 0 =
      (((period : ℚ) - 1) * (ewmWilder period xs).getD i 0 + xs.getD (i + 1) 0) /
        (period : ℚ) := by
  cases xs with
  | nil => simp at h
  | cons x xs =>
    cases i with
    | zero =>
      cases xs with
      | nil => simp at h
      | cons z rest => rfl
    | succ i =>
      have h' : i + 1 < xs.length := by simp at h; omega
      rw [show (ewmWilder period (x :: xs)).getD (i + 1 + 1) 0 =
        (ewmAux period x xs).getD (i + 1) 0 from rfl]
      rw [ewmAux_getD_succ period xs x i h']
      rfl

theorem ewm_gain_eq_wilder (prices : List ℚ) (period : ℕ) :
    ∀ t, t < prices.length →
      (ewmWilder period ((pdDiff prices).map gainOf)).getD t 0 =
        wilderAvgGain prices period t := by
  have hlen : ((pdDiff prices).map gainOf).length = prices.length := by
    rw [List.length_map, pdDiff_length]
  intro t
  induction t with
  | zero =>
    intro h
    have hne : prices ≠ [] := by
      intro he; subst he; simp at h
    cases prices with
    | nil => exact absurd rfl hne
    | cons x xs =>
      rw [show (ewmWilder period ((pdDiff (x :: xs)).map gainOf)).getD 0 0 =
        ((pdDiff (x :: xs)).map gainOf).getD 0 0 from rfl]
      rw [map_pdDiff_getD_zero gainOf rfl (x :: xs) hne]
      rfl
  | succ t ih =>
    intro h
    rw [ewmWilder_getD_succ period _ t (by rw [hlen]; exact h),
      ih (by omega), map_pdDiff_getD_succ gainOf prices t h, gainOf_some]
    rfl

theorem ewm_loss_eq_wilder (prices : List ℚ) (period : ℕ) :
    ∀ t, t < prices.length →
      (ewmWilder period ((pdDiff prices).map lossOf)).getD t 0 =
        wilderAvgLoss prices period t := by
  have hlen : ((pdDiff prices).map lossOf).length = prices.length := by
    rw [List.length_map, pdDiff_length]
  intro t
  induction t with
  | zero =>
    intro h
    have hne : prices ≠ [] := by
      intro he; subst he; simp at h
    cases prices with
    | nil => exact absurd rfl hne
    | cons x xs =>
      rw [show (ewmWilder period ((pdDiff (x :: xs)).map lossOf)).getD 0 0 =
        ((pdDiff (x :: xs)).map lossOf).getD 0 0 from rfl]
      rw [map_pdDiff_getD_zero lossOf rfl (x :: xs) hne]
      rfl
  | succ t ih =>
    intro h
    rw [ewmWilder_getD_succ period _ t (by rw [hlen]; exact h),
      ih (by omega), map_pdDiff_getD_succ lossOf prices t h, lossOf_some]
    rw [wilderAvgLoss]
    congr 2
    rw [neg_sub]

/-- C8 (amended): the RSI column computed by the batch `rsi_strategy`
(src/strategies/rsi_strategy.py) IS Wilder smoothing: wherever it is
defined it equals the reference `rsiWilderRef` — average gain/loss under
Wilder's recursive smoothing (alpha = 1/period, the first, undefined
price change counting as zero), `RS = avgGain/avgLoss`,
`RSI = 100 − 100/(1+RS)` — and the two agree on definedness as well.
The backtest `RSIStrategy._calculate_rsi` (src/core_engine) instead uses
simple rolling means of gains and losses and does not equal this
reference (see the counterexample). -/
theorem batch_rsi_is_wilder (prices : List ℚ) (period : ℕ) (_hp : 0 < period)
    (i : ℕ) :
    rsi_strategy_rsi prices period i = rsiWilderRef prices period i := by
  unfold rsi_strategy_rsi rsiWilderRef
  by_cases hi : i < prices.length
  · rw [if_pos hi]
    by_cases hmin : i + 1 < period
    · rw [if_pos hmin, if_neg]
      rintro ⟨-, h2, -⟩
      omega
    · rw [if_neg hmin]
      dsimp only
      rw [ewm_gain_eq_wilder prices period i hi, ewm_loss_eq_wilder prices period i hi]
      by_cases hl : wilderAvgLoss prices period i = 0
      · rw [if_pos hl, if_neg]
        rintro ⟨-, -, h3⟩
        exact h3 hl
      · rw [if_neg hl, if_pos ⟨hi, by omega, hl⟩]
  · rw [if_neg hi, if_neg]
    rintro ⟨h1, -⟩
    exact hi h1

/-- Witness for the amended C8 on the counterexample's prices, where the
batch pipeline and the Wilder reference agree (both 50). -/
theorem batch_rsi_is_wilder_witness :
    (0 : ℕ) < 2 ∧
      rsi_strategy_rsi [1, 3, 2, 4, 3] 2 4 = rsiWilderRef [1, 3, 2, 4, 3] 2 4 :=
  ⟨by decide, batch_rsi_is_wilder [1, 3, 2, 4, 3] 2 (by decide) 4⟩

end Trading
